import Mathlib

/-!
Verification of the expense-tracker backend's aggregation, category, expense and
authentication logic.  The JavaScript sources are embedded shallowly: Mongo
documents become Lean structures, aggregation pipelines and repository methods
become pure functions over lists, and the HTTP controllers become functions from
request data and a store to a result record carrying the HTTP status code, the
`status` flag, the message and the updated store.

Dates are modelled at day granularity (`SimpleDate`): every stored `date` is a
BSON `Date`, and all comparisons the code performs on them (range `$match`,
`$sort`, chart bucketing) only depend on the calendar day for the properties
proved here.  Monetary amounts are modelled as `Rat` (JS numbers, used
exactly on the values appearing in the claims).
-/

namespace ExpenseTracker

/-- A calendar date `(year, month, day)`, the day-granularity view of a stored
BSON `Date`. -/
structure SimpleDate where
  year : Nat
  month : Nat
  day : Nat
deriving DecidableEq

/-- An `Expense` document (`src/models/expense.js`): title, amount, category
reference, date, owning user reference, plus the `createdAt` timestamp added by
`timestamps: true`.  Object ids are modelled as `Nat`. -/
structure Expense where
  id : Nat
  title : String
  amount : Rat
  category : Nat
  date : SimpleDate
  createdBy : Nat
  createdAt : Nat
deriving DecidableEq

/-- A `Category` document (`src/models/category.js`): name, `isDefault` flag and
owning user reference (`none` for default/shared categories). -/
structure Category where
  id : Nat
  name : String
  isDefault : Bool
  createdBy : Option Nat
deriving DecidableEq

/-- The document store visible to the claims: all categories and all expenses. -/
structure Store where
  categories : List Category
  expenses : List Expense
deriving DecidableEq

/-- Gregorian leap-year test, as implemented by the JS `Date` type. -/
def isLeapYear (y : Nat) : Bool :=
  (y % 4 == 0 && y % 100 != 0) || y % 400 == 0

/-- Number of days in a month, as computed by `new Date(year, month, 0).getDate()`. -/
def daysInMonth (year month : Nat) : Nat :=
  if month = 2 then (if isLeapYear year then 29 else 28)
  else if month = 4 ∨ month = 6 ∨ month = 9 ∨ month = 11 then 30
  else 31

theorem daysInMonth_le_31 (year month : Nat) : daysInMonth year month ≤ 31 := by
  unfold daysInMonth
  split
  · split <;> omega
  · split <;> omega

theorem daysInMonth_pos (year month : Nat) : 0 < daysInMonth year month := by
  unfold daysInMonth
  split
  · split <;> omega
  · split <;> omega

/-- BSON `Date` comparison at day granularity: two `Date` values compare by
timestamp, which on the calendar-day view is the lexicographic order on
`(year, month, day)`. -/
def dateLE (a b : SimpleDate) : Prop :=
  a.year < b.year ∨
    (a.year = b.year ∧ (a.month < b.month ∨ (a.month = b.month ∧ a.day ≤ b.day)))

instance (a b : SimpleDate) : Decidable (dateLE a b) := by
  unfold dateLE; infer_instance

/-- Order-preserving linearization of the UTC timestamp of a date (valid months
are below 372 and valid days below 32, so this is strictly monotone in the
chronological order). -/
def dateNum (d : SimpleDate) : Nat :=
  (d.year * 372 + d.month) * 32 + d.day

/-- The month `$match` range used throughout the repositories:
`date: { $gte: new Date(year, month-1, 1), $lte: new Date(year, month, 0, 23, 59, 59, 999) }`,
i.e. from the first to the last day of the month, inclusive. -/
def inMonthRange (year month : Nat) (d : SimpleDate) : Bool :=
  decide (dateLE ⟨year, month, 1⟩ d) && decide (dateLE d ⟨year, month, daysInMonth year month⟩)

theorem inMonthRange_iff (year month : Nat) (d : SimpleDate) :
    inMonthRange year month d = true ↔
      d.year = year ∧ d.month = month ∧ 1 ≤ d.day ∧ d.day ≤ daysInMonth year month := by
  rcases d with ⟨dy, dm, dd⟩
  simp only [inMonthRange, dateLE, Bool.and_eq_true, decide_eq_true_eq]
  constructor
  · rintro ⟨h₁, h₂⟩
    omega
  · rintro ⟨h₁, h₂, h₃, h₄⟩
    omega

/-- The `$match { createdBy: userId, date: range }` stage shared by the monthly
breakdown queries. -/
def monthExpenses (userId month year : Nat) (es : List Expense) : List Expense :=
  es.filter (fun e => e.createdBy == userId && inMonthRange year month e.date)

theorem mem_monthExpenses {userId month year : Nat} {es : List Expense} {e : Expense}
    (h : e ∈ monthExpenses userId month year es) :
    e.date.year = year ∧ e.date.month = month ∧
      1 ≤ e.date.day ∧ e.date.day ≤ daysInMonth year month := by
  have h' := (List.mem_filter.mp h).2
  simp only [Bool.and_eq_true, beq_iff_eq] at h'
  exact (inMonthRange_iff year month e.date).mp h'.2

/-! ## JS `Map` accumulation (used by the client-side bucketing fallbacks) -/

/-- One step of the `dailyMap.has(k) ? set(k, get(k) + v) : set(k, v)` pattern: a
JS `Map` iterates in insertion order, so a fresh key goes to the end. -/
def insertAdd {κ : Type} [DecidableEq κ] (k : κ) (v : Rat) :
    List (κ × Rat) → List (κ × Rat)
  | [] => [(k, v)]
  | (k', v') :: rest =>
      if k' = k then (k', v' + v) :: rest else (k', v') :: insertAdd k v rest

/-- `forEach` accumulation into a JS `Map` keyed by `key e`, adding `amt e`;
`Array.from(map.entries())` then yields the pairs in insertion order. -/
def groupSum {ε κ : Type} [DecidableEq κ] (key : ε → κ) (amt : ε → Rat)
    (l : List ε) : List (κ × Rat) :=
  l.foldl (fun acc e => insertAdd (key e) (amt e) acc) []

theorem insertAdd_sum {κ : Type} [DecidableEq κ] (k : κ) (v : Rat) :
    ∀ l : List (κ × Rat),
      ((insertAdd k v l).map (fun p => p.2)).sum = v + (l.map (fun p => p.2)).sum
  | [] => by simp [insertAdd]
  | (k', v') :: rest => by
      by_cases h : k' = k
      · simp [insertAdd, h]
        ring
      · have ih := insertAdd_sum k v rest
        simp [insertAdd, h, ih]
        ring

theorem groupSum_go_sum {ε κ : Type} [DecidableEq κ] (key : ε → κ) (amt : ε → Rat) :
    ∀ (l : List ε) (acc : List (κ × Rat)),
      ((l.foldl (fun a e => insertAdd (key e) (amt e) a) acc).map (fun p => p.2)).sum =
        (acc.map (fun p => p.2)).sum + (l.map amt).sum
  | [], acc => by simp
  | e :: rest, acc => by
      have ih := groupSum_go_sum key amt rest (insertAdd (key e) (amt e) acc)
      simp only [List.foldl_cons, List.map_cons, List.sum_cons] at ih ⊢
      rw [ih, insertAdd_sum]
      ring

/-- The values of a grouped list sum to the sum of the grouped amounts. -/
theorem groupSum_sum {ε κ : Type} [DecidableEq κ] (key : ε → κ) (amt : ε → Rat)
    (l : List ε) :
    ((groupSum key amt l).map (fun p => p.2)).sum = (l.map amt).sum := by
  have h := groupSum_go_sum key amt l []
  simpa [groupSum] using h

theorem insertAdd_keys {κ : Type} [DecidableEq κ] (k : κ) (v : Rat) :
    ∀ l : List (κ × Rat),
      (insertAdd k v l).map (fun p => p.1) =
        if k ∈ l.map (fun p => p.1) then l.map (fun p => p.1)
        else l.map (fun p => p.1) ++ [k]
  | [] => by simp [insertAdd]
  | (k', v') :: rest => by
      by_cases h : k' = k
      · simp [insertAdd, h]
      · have ih := insertAdd_keys k v rest
        by_cases hm : k ∈ rest.map (fun p => p.1)
        · simp [insertAdd, h, hm, ih, Ne.symm h]
        · simp [insertAdd, h, hm, ih, Ne.symm h]

theorem insertAdd_keys_nodup {κ : Type} [DecidableEq κ] (k : κ) (v : Rat)
    (l : List (κ × Rat)) (h : (l.map (fun p => p.1)).Nodup) :
    ((insertAdd k v l).map (fun p => p.1)).Nodup := by
  rw [insertAdd_keys]
  split
  · exact h
  · next hm =>
      rw [List.nodup_append]
      refine ⟨h, List.nodup_singleton k, ?_⟩
      intro x hx hk
      simp only [List.mem_singleton] at hk
      subst hk
      exact hm hx

theorem insertAdd_keys_subset {κ : Type} [DecidableEq κ] (k : κ) (v : Rat)
    (l : List (κ × Rat)) {x : κ} (hx : x ∈ (insertAdd k v l).map (fun p => p.1)) :
    x ∈ l.map (fun p => p.1) ∨ x = k := by
  rw [insertAdd_keys] at hx
  split at hx
  · exact Or.inl hx
  · rcases List.mem_append.mp hx with h | h
    · exact Or.inl h
    · simp at h
      exact Or.inr h

theorem groupSum_go_keys_nodup {ε κ : Type} [DecidableEq κ] (key : ε → κ) (amt : ε → Rat) :
    ∀ (l : List ε) (acc : List (κ × Rat)),
      (acc.map (fun p => p.1)).Nodup →
      ((l.foldl (fun a e => insertAdd (key e) (amt e) a) acc).map (fun p => p.1)).Nodup
  | [], acc, h => h
  | e :: rest, acc, h =>
      groupSum_go_keys_nodup key amt rest _ (insertAdd_keys_nodup _ _ _ h)

/-- The keys of a grouped list are pairwise distinct. -/
theorem groupSum_keys_nodup {ε κ : Type} [DecidableEq κ] (key : ε → κ) (amt : ε → Rat)
    (l : List ε) : ((groupSum key amt l).map (fun p => p.1)).Nodup :=
  groupSum_go_keys_nodup key amt l [] (by simp)

theorem groupSum_go_keys_subset {ε κ : Type} [DecidableEq κ] (key : ε → κ) (amt : ε → Rat) :
    ∀ (l : List ε) (acc : List (κ × Rat)) {x : κ},
      x ∈ ((l.foldl (fun a e => insertAdd (key e) (amt e) a) acc).map (fun p => p.1)) →
      x ∈ acc.map (fun p => p.1) ∨ x ∈ l.map key
  | [], acc, x, hx => Or.inl hx
  | e :: rest, acc, x, hx => by
      rcases groupSum_go_keys_subset key amt rest _ hx with h | h
      · rcases insertAdd_keys_subset _ _ _ h with h' | h'
        · exact Or.inl h'
        · exact Or.inr (by simp [h'])
      · exact Or.inr (by simp [h])

/-- Every key of a grouped list is the key of some grouped element. -/
theorem groupSum_keys_subset {ε κ : Type} [DecidableEq κ] (key : ε → κ) (amt : ε → Rat)
    (l : List ε) {x : κ} (hx : x ∈ (groupSum key amt l).map (fun p => p.1)) :
    x ∈ l.map key := by
  rcases groupSum_go_keys_subset key amt l [] hx with h | h
  · simp at h
  · exact h

theorem insertAdd_map_key {κ κ' : Type} [DecidableEq κ] [DecidableEq κ']
    (g : κ → κ') (k : κ) (v : Rat) (l : List (κ × Rat))
    (hg : ∀ k' ∈ l.map (fun p => p.1), g k' = g k → k' = k) :
    insertAdd (g k) v (l.map (fun p => (g p.1, p.2))) =
      (insertAdd k v l).map (fun p => (g p.1, p.2)) := by
  induction l with
  | nil => simp [insertAdd]
  | cons p rest ih =>
      rcases p with ⟨k', v'⟩
      by_cases h : k' = k
      · subst h
        simp [insertAdd]
      · have hne : g k' ≠ g k := fun hgk => h (hg k' (by simp) hgk)
        simp [insertAdd, h, hne, ih (fun a ha hga => hg a (by simp [ha]) hga)]

theorem groupSum_go_map_key {ε κ κ' : Type} [DecidableEq κ] [DecidableEq κ']
    (key : ε → κ) (amt : ε → Rat) (g : κ → κ') :
    ∀ (l : List ε) (acc : List (κ × Rat)),
      (∀ e ∈ l, ∀ e' ∈ l, g (key e) = g (key e') → key e = key e') →
      (∀ e ∈ l, ∀ k ∈ acc.map (fun p => p.1), g k = g (key e) → k = key e) →
      l.foldl (fun a e => insertAdd (g (key e)) (amt e) a) (acc.map (fun p => (g p.1, p.2))) =
        (l.foldl (fun a e => insertAdd (key e) (amt e) a) acc).map (fun p => (g p.1, p.2))
  | [], _, _, _ => rfl
  | e :: rest, acc, hl, hacc => by
      simp only [List.foldl_cons]
      rw [insertAdd_map_key g (key e) (amt e) acc (fun k' hk' hgk => hacc e (by simp) k' hk' hgk)]
      exact groupSum_go_map_key key amt g rest (insertAdd (key e) (amt e) acc)
        (fun a ha b hb => hl a (by simp [ha]) b (by simp [hb]))
        (fun a ha k hk hgk => by
          rcases insertAdd_keys_subset (key e) (amt e) acc hk with h' | h'
          · exact hacc a (by simp [ha]) k h' hgk
          · subst h'
            exact hl e (by simp) a (by simp [ha]) hgk)

/-- Rekeying a grouping by a function injective on the occurring keys commutes with
the grouping. -/
theorem groupSum_map_key {ε κ κ' : Type} [DecidableEq κ] [DecidableEq κ']
    (key : ε → κ) (amt : ε → Rat) (g : κ → κ') (l : List ε)
    (hinj : ∀ e ∈ l, ∀ e' ∈ l, g (key e) = g (key e') → key e = key e') :
    groupSum (fun e => g (key e)) amt l = (groupSum key amt l).map (fun p => (g p.1, p.2)) := by
  have h := groupSum_go_map_key key amt g l [] hinj (by simp)
  simpa [groupSum] using h

/-! ## ISO date strings and their ordering -/

theorem digitChar_lt_iff : ∀ a < 10, ∀ b < 10,
    (Nat.digitChar a < Nat.digitChar b ↔ a < b) := by decide

theorem digitChar_eq_iff : ∀ a < 10, ∀ b < 10,
    (Nat.digitChar a = Nat.digitChar b ↔ a = b) := by decide

/-- Last two decimal digits of `n`, zero padded (the "%m" / "%d" field). -/
def pad2Chars (n : Nat) : List Char :=
  [Nat.digitChar (n / 10 % 10), Nat.digitChar (n % 10)]

/-- Last four decimal digits of `n`, zero padded (the "%Y" field, exact for years
up to 9999). -/
def pad4Chars (n : Nat) : List Char :=
  [Nat.digitChar (n / 1000 % 10), Nat.digitChar (n / 100 % 10),
   Nat.digitChar (n / 10 % 10), Nat.digitChar (n % 10)]

/-- The "YYYY-MM-" prefix shared by the day keys of one month. -/
def isoPrefixChars (year month : Nat) : List Char :=
  pad4Chars year ++ '-' :: (pad2Chars month ++ ['-'])

/-- Characters of the day key produced both by the pipeline's
`$dateToString { format: "%Y-%m-%d" }` and by the fallback's
`toISOString().split('T')[0]`. -/
def isoChars (d : SimpleDate) : List Char :=
  isoPrefixChars d.year d.month ++ pad2Chars d.day

def isoOfDate (d : SimpleDate) : String := String.mk (isoChars d)

def charDigit (c : Char) : Nat := c.toNat - 48

def isDigitChar (c : Char) : Bool := decide (48 ≤ c.toNat) && decide (c.toNat ≤ 57)

/-- Model of the JS `new Date(s)` parser on the canonical "YYYY-MM-DD" strings the
daily buckets carry: recovers the date fields; any other shape is unparseable. -/
def parseISO : List Char → Option SimpleDate
  | [y1, y2, y3, y4, c1, m1, m2, c2, d1, d2] =>
      if c1 = '-' ∧ c2 = '-' ∧
          (isDigitChar y1 && isDigitChar y2 && isDigitChar y3 && isDigitChar y4 &&
           isDigitChar m1 && isDigitChar m2 && isDigitChar d1 && isDigitChar d2) = true then
        some ⟨charDigit y1 * 1000 + charDigit y2 * 100 + charDigit y3 * 10 + charDigit y4,
              charDigit m1 * 10 + charDigit m2,
              charDigit d1 * 10 + charDigit d2⟩
      else none
  | _ => none

/-- `new Date(s).getTime()` on the canonical ISO day keys, as the order-preserving
`dateNum` linearization of the UTC timestamp. -/
def jsDateTime (s : String) : Nat :=
  match parseISO s.toList with
  | some d => dateNum d
  | none => 0

theorem charDigit_digitChar : ∀ a < 10, charDigit (Nat.digitChar a) = a := by decide

theorem isDigitChar_digitChar : ∀ a < 10, isDigitChar (Nat.digitChar a) = true := by decide

theorem parseISO_isoChars (d : SimpleDate)
    (hy : d.year ≤ 9999) (hm : d.month ≤ 99) (hd : d.day ≤ 99) :
    parseISO (isoChars d) = some d := by
  rcases d with ⟨y, m, dd⟩
  simp only at hy hm hd
  have hten : ∀ n : Nat, n % 10 < 10 := fun n => Nat.mod_lt _ (by norm_num)
  have e₁ := isDigitChar_digitChar _ (hten (y / 1000))
  have e₂ := isDigitChar_digitChar _ (hten (y / 100))
  have e₃ := isDigitChar_digitChar _ (hten (y / 10))
  have e₄ := isDigitChar_digitChar _ (hten y)
  have e₅ := isDigitChar_digitChar _ (hten (m / 10))
  have e₆ := isDigitChar_digitChar _ (hten m)
  have e₇ := isDigitChar_digitChar _ (hten (dd / 10))
  have e₈ := isDigitChar_digitChar _ (hten dd)
  have c₁ := charDigit_digitChar _ (hten (y / 1000))
  have c₂ := charDigit_digitChar _ (hten (y / 100))
  have c₃ := charDigit_digitChar _ (hten (y / 10))
  have c₄ := charDigit_digitChar _ (hten y)
  have c₅ := charDigit_digitChar _ (hten (m / 10))
  have c₆ := charDigit_digitChar _ (hten m)
  have c₇ := charDigit_digitChar _ (hten (dd / 10))
  have c₈ := charDigit_digitChar _ (hten dd)
  simp only [isoChars, isoPrefixChars, pad4Chars, pad2Chars, List.cons_append,
    List.nil_append, List.append_assoc, parseISO, e₁, e₂, e₃, e₄, e₅, e₆, e₇, e₈,
    c₁, c₂, c₃, c₄, c₅, c₆, c₇, c₈, Bool.and_self, and_true, if_pos, and_self,
    Option.some.injEq, SimpleDate.mk.injEq, if_true]
  refine ⟨by omega, by omega, by omega⟩

theorem isoOfDate_inj (d₁ d₂ : SimpleDate)
    (h₁y : d₁.year ≤ 9999) (h₁m : d₁.month ≤ 99) (h₁d : d₁.day ≤ 99)
    (h₂y : d₂.year ≤ 9999) (h₂m : d₂.month ≤ 99) (h₂d : d₂.day ≤ 99)
    (h : isoOfDate d₁ = isoOfDate d₂) : d₁ = d₂ := by
  have hchars : isoChars d₁ = isoChars d₂ := congrArg String.toList h
  have := parseISO_isoChars d₁ h₁y h₁m h₁d
  rw [hchars, parseISO_isoChars d₂ h₂y h₂m h₂d] at this
  exact (Option.some.injEq _ _ ▸ this).symm

theorem string_lt_iff_lex (s t : String) :
    s < t ↔ List.Lex (· < ·) s.toList t.toList := by
  rw [String.lt_iff_toList_lt]
  exact Iff.rfl

theorem lex_append_left_iff (p l₁ l₂ : List Char) :
    List.Lex (· < ·) (p ++ l₁) (p ++ l₂) ↔ List.Lex (· < ·) l₁ l₂ := by
  induction p with
  | nil => exact Iff.rfl
  | cons c p ih =>
      rw [List.cons_append, List.cons_append, List.Lex.cons_iff]
      exact ih

theorem lex_cons_iff_of_head {a b : Char} {l₁ l₂ : List Char} :
    List.Lex (· < ·) (a :: l₁) (b :: l₂) ↔ a < b ∨ (a = b ∧ List.Lex (· < ·) l₁ l₂) := by
  by_cases h : a = b
  · subst h
    rw [List.Lex.cons_iff]
    simp [lt_irrefl]
  · constructor
    · intro hl
      cases hl with
      | rel hr => exact Or.inl hr
      | cons ht => exact absurd rfl h
    · rintro (hr | ⟨he, _⟩)
      · exact List.Lex.rel hr
      · exact absurd he h

theorem pad2Chars_lex_iff (a b : Nat) :
    List.Lex (· < ·) (pad2Chars a) (pad2Chars b) ↔ a % 100 < b % 100 := by
  have hten : ∀ n : Nat, n % 10 < 10 := fun n => Nat.mod_lt _ (by norm_num)
  have hnil : ¬ List.Lex (· < ·) ([] : List Char) [] := List.Lex.not_nil_right _ _
  unfold pad2Chars
  rw [lex_cons_iff_of_head, lex_cons_iff_of_head]
  rw [digitChar_lt_iff _ (hten (a / 10)) _ (hten (b / 10)),
      digitChar_eq_iff _ (hten (a / 10)) _ (hten (b / 10)),
      digitChar_lt_iff _ (hten a) _ (hten b),
      digitChar_eq_iff _ (hten a) _ (hten b)]
  constructor
  · rintro (h | ⟨h₁, h₂ | ⟨h₂, h₃⟩⟩)
    · omega
    · omega
    · exact absurd h₃ hnil
  · intro h
    omega

theorem isoOfDate_lt_iff (y m d₁ d₂ : Nat) :
    isoOfDate ⟨y, m, d₁⟩ < isoOfDate ⟨y, m, d₂⟩ ↔ d₁ % 100 < d₂ % 100 := by
  rw [string_lt_iff_lex]
  show List.Lex (· < ·) (isoChars ⟨y, m, d₁⟩) (isoChars ⟨y, m, d₂⟩) ↔ _
  unfold isoChars
  rw [lex_append_left_iff]
  exact pad2Chars_lex_iff d₁ d₂

theorem isoOfDate_le_iff (y m d₁ d₂ : Nat) :
    isoOfDate ⟨y, m, d₁⟩ ≤ isoOfDate ⟨y, m, d₂⟩ ↔ d₁ % 100 ≤ d₂ % 100 := by
  rw [← not_lt, isoOfDate_lt_iff]
  omega

theorem jsDateTime_isoOfDate (d : SimpleDate)
    (hy : d.year ≤ 9999) (hm : d.month ≤ 99) (hd : d.day ≤ 99) :
    jsDateTime (isoOfDate d) = dateNum d := by
  unfold jsDateTime
  rw [show (isoOfDate d).toList = isoChars d from rfl, parseISO_isoChars d hy hm hd]

theorem SimpleDate.ext' {a b : SimpleDate}
    (h1 : a.year = b.year) (h2 : a.month = b.month) (h3 : a.day = b.day) : a = b := by
  rcases a with ⟨_, _, _⟩
  rcases b with ⟨_, _, _⟩
  simp_all

/-! ## The daily breakdown: native pipeline and client-side fallback -/

/-- Ascending `$sort {date: 1}` comparator on the projected rows: BSON string order
on the "YYYY-MM-DD" keys. -/
def strRowLE (a b : String × Rat) : Prop := a.1 ≤ b.1

def strRowLt (a b : String × Rat) : Prop := a.1 < b.1

/-- The fallback's final sort comparator
`(a, b) => new Date(a.date).getTime() - new Date(b.date).getTime()`. -/
def jsRowLE (a b : String × Rat) : Prop := jsDateTime a.1 ≤ jsDateTime b.1

instance : DecidableRel strRowLE :=
  fun a b => inferInstanceAs (Decidable (a.1 ≤ b.1))

instance : IsTotal (String × Rat) strRowLE := ⟨fun a b => le_total a.1 b.1⟩

instance : IsTrans (String × Rat) strRowLE := ⟨fun _ _ _ h₁ h₂ => le_trans h₁ h₂⟩

instance : DecidableRel jsRowLE :=
  fun a b => inferInstanceAs (Decidable (jsDateTime a.1 ≤ jsDateTime b.1))

instance : IsTotal (String × Rat) jsRowLE := ⟨fun a b => Nat.le_total _ _⟩

instance : IsTrans (String × Rat) jsRowLE := ⟨fun _ _ _ h₁ h₂ => Nat.le_trans h₁ h₂⟩

instance : IsAntisymm (String × Rat) strRowLt :=
  ⟨fun _ _ h₁ h₂ => absurd h₂ (lt_asymm h₁)⟩

/-- `MonthlyBreakdownRepository.getDailyBreakdown`'s aggregation pipeline:
`$match` user + month range, `$toDate` (identity on `Date`-typed values, with the
`$ne: null` guard), `$group` by (year, month, day) summing `amount`, `$project` the
"%Y-%m-%d" key, `$sort {date: 1}`. -/
def dailyBreakdownAggregate (userId month year : Nat) (es : List Expense) :
    List (String × Rat) :=
  List.insertionSort strRowLE
    ((groupSum (fun e => e.date) (fun e => e.amount) (monthExpenses userId month year es)).map
      (fun p => (isoOfDate p.1, p.2)))

/-- `MonthlyBreakdownRepository.getDailyBreakdownSimple`: `find` the same range,
bucket the amounts by `toISOString().split('T')[0]` in a JS `Map`, then sort the
(date, amount) pairs ascending by `new Date(date).getTime()`. -/
def getDailyBreakdownSimple (userId month year : Nat) (es : List Expense) :
    List (String × Rat) :=
  List.insertionSort jsRowLE
    (groupSum (fun e => isoOfDate e.date) (fun e => e.amount) (monthExpenses userId month year es))

/-- `MonthlyBreakdownRepository.getDailyBreakdown` with its try/catch: when the
store-native aggregation fails (`aggregateFails`), fall back to
`getDailyBreakdownSimple`. -/
def getDailyBreakdown (aggregateFails : Bool) (userId month year : Nat)
    (es : List Expense) : List (String × Rat) :=
  if aggregateFails then getDailyBreakdownSimple userId month year es
  else dailyBreakdownAggregate userId month year es

theorem sort_str_eq_sort_js (year month : Nat) (hyear : year ≤ 9999) (hmonth : month ≤ 99)
    (G : List (SimpleDate × Rat))
    (hbounds : ∀ k ∈ G.map (fun p => p.1),
      k.year = year ∧ k.month = month ∧ 1 ≤ k.day ∧ k.day ≤ 31)
    (hnodup : (G.map (fun p => p.1)).Nodup) :
    List.insertionSort strRowLE (G.map (fun p => (isoOfDate p.1, p.2))) =
      List.insertionSort jsRowLE (G.map (fun p => (isoOfDate p.1, p.2))) := by
  classical
  set L := G.map (fun p => (isoOfDate p.1, p.2)) with hL
  have hkeymap : L.map (fun q => q.1) = (G.map (fun q => q.1)).map isoOfDate := by
    simp [hL, List.map_map, Function.comp]
  have hkey : ∀ p ∈ L, ∃ dd, 1 ≤ dd ∧ dd ≤ 31 ∧ p.1 = isoOfDate ⟨year, month, dd⟩ := by
    intro p hp
    have h1 : p.1 ∈ L.map (fun q => q.1) := List.mem_map_of_mem _ hp
    rw [hkeymap] at h1
    obtain ⟨k, hk, hpk⟩ := List.mem_map.mp h1
    obtain ⟨h1', h2', h3', h4'⟩ := hbounds k hk
    refine ⟨k.day, h3', h4', ?_⟩
    rw [← hpk]
    exact congrArg isoOfDate (SimpleDate.ext' h1' h2' rfl)
  have hLkeysnodup : (L.map (fun p => p.1)).Nodup := by
    rw [hkeymap]
    have hpw : List.Pairwise (fun a b => a ≠ b) (G.map (fun p => p.1)) := hnodup
    have hpw' : List.Pairwise (fun a b => isoOfDate a ≠ isoOfDate b)
        (G.map (fun p => p.1)) := by
      refine List.Pairwise.imp_of_mem ?_ hpw
      intro a b ha hb hne hiso
      obtain ⟨ha1, ha2, ha3, ha4⟩ := hbounds a ha
      obtain ⟨hb1, hb2, hb3, hb4⟩ := hbounds b hb
      exact hne (isoOfDate_inj a b (by omega) (by omega) (by omega)
        (by omega) (by omega) (by omega) hiso)
    exact List.pairwise_map.mpr hpw'
  have hperm₁ : (List.insertionSort strRowLE L).Perm L := List.perm_insertionSort _ _
  have hperm₂ : (List.insertionSort jsRowLE L).Perm L := List.perm_insertionSort _ _
  have hsorted₁ : List.Sorted strRowLt (List.insertionSort strRowLE L) := by
    have hs : List.Sorted strRowLE (List.insertionSort strRowLE L) :=
      List.sorted_insertionSort _ _
    have hnd : ((List.insertionSort strRowLE L).map (fun p => p.1)).Nodup :=
      ((hperm₁.map (fun p => p.1)).symm).nodup hLkeysnodup
    have hne : List.Pairwise (fun a b : String × Rat => a.1 ≠ b.1)
        (List.insertionSort strRowLE L) := List.pairwise_map.mp hnd
    exact List.Pairwise.imp (fun h => lt_of_le_of_ne h.1 h.2) (List.Pairwise.and hs hne)
  have hsorted₂ : List.Sorted strRowLt (List.insertionSort jsRowLE L) := by
    have hs : List.Sorted jsRowLE (List.insertionSort jsRowLE L) :=
      List.sorted_insertionSort _ _
    have hnd : ((List.insertionSort jsRowLE L).map (fun p => p.1)).Nodup :=
      ((hperm₂.map (fun p => p.1)).symm).nodup hLkeysnodup
    have hne : List.Pairwise (fun a b : String × Rat => a.1 ≠ b.1)
        (List.insertionSort jsRowLE L) := List.pairwise_map.mp hnd
    refine List.Pairwise.imp_of_mem ?_ (List.Pairwise.and hs hne)
    intro a b ha hb hh
    obtain ⟨da, hda1, hda2, hda3⟩ := hkey a (hperm₂.mem_iff.mp ha)
    obtain ⟨db, hdb1, hdb2, hdb3⟩ := hkey b (hperm₂.mem_iff.mp hb)
    have hje : jsDateTime a.1 ≤ jsDateTime b.1 := hh.1
    rw [hda3, hdb3,
        jsDateTime_isoOfDate ⟨year, month, da⟩ hyear hmonth (show da ≤ 99 by omega),
        jsDateTime_isoOfDate ⟨year, month, db⟩ hyear hmonth (show db ≤ 99 by omega)] at hje
    simp only [dateNum] at hje
    have hne' : da ≠ db := by
      intro hcon
      exact hh.2 (by rw [hda3, hdb3, hcon])
    show strRowLt a b
    unfold strRowLt
    rw [hda3, hdb3, isoOfDate_lt_iff]
    omega
  exact List.eq_of_perm_of_sorted (hperm₁.trans hperm₂.symm) hsorted₁ hsorted₂

/-- The client-side fallback bucketing computes exactly the rows of the native
daily aggregation pipeline, in the same ascending order. -/
theorem dailySimple_eq_aggregate (userId month year : Nat) (es : List Expense)
    (hmonth : month ≤ 99) (hyear : year ≤ 9999) :
    getDailyBreakdownSimple userId month year es =
      dailyBreakdownAggregate userId month year es := by
  classical
  have hdates : ∀ e ∈ monthExpenses userId month year es,
      e.date.year = year ∧ e.date.month = month ∧ 1 ≤ e.date.day ∧ e.date.day ≤ 31 :=
    fun e he =>
      have h := mem_monthExpenses he
      ⟨h.1, h.2.1, h.2.2.1, le_trans h.2.2.2 (daysInMonth_le_31 _ _)⟩
  have hinj : ∀ e ∈ monthExpenses userId month year es,
      ∀ e' ∈ monthExpenses userId month year es,
      isoOfDate e.date = isoOfDate e'.date → e.date = e'.date := by
    intro e he e' he' hiso
    obtain ⟨hy1, hm1, _, hd1⟩ := hdates e he
    obtain ⟨hy2, hm2, _, hd2⟩ := hdates e' he'
    exact isoOfDate_inj _ _ (by omega) (by omega) (by omega)
      (by omega) (by omega) (by omega) hiso
  have hmap := groupSum_map_key (fun e => e.date) (fun e => e.amount) isoOfDate
    (monthExpenses userId month year es) hinj
  have hbounds : ∀ k ∈ (groupSum (fun e : Expense => e.date) (fun e => e.amount)
        (monthExpenses userId month year es)).map (fun p => p.1),
      k.year = year ∧ k.month = month ∧ 1 ≤ k.day ∧ k.day ≤ 31 := by
    intro k hk
    have hkF := groupSum_keys_subset (fun e : Expense => e.date) (fun e => e.amount) _ hk
    obtain ⟨e, heF, hek⟩ := List.mem_map.mp hkF
    obtain ⟨h1', h2', h3', h4'⟩ := hdates e heF
    exact ⟨hek ▸ h1', hek ▸ h2', hek ▸ h3', hek ▸ h4'⟩
  have hnodup := groupSum_keys_nodup (fun e : Expense => e.date) (fun e => e.amount)
    (monthExpenses userId month year es)
  unfold getDailyBreakdownSimple dailyBreakdownAggregate
  rw [hmap]
  exact (sort_str_eq_sort_js year month hyear hmonth _ hbounds hnodup).symm

/-! ## Monthly summary, its formatting, and the category distribution -/

structure SummaryStats where
  totalAmount : Rat
  totalExpenses : Nat
  averageAmount : Rat
deriving DecidableEq

/-- `MonthlyBreakdownRepository.getMonthlySummary`: `$match` user + month range,
`$group` with `$sum`, count and `$avg`; `stats[0] || {0, 0, 0}` when the month has
no matching expense. -/
def getMonthlySummary (userId month year : Nat) (es : List Expense) : SummaryStats :=
  let l := monthExpenses userId month year es
  if l.isEmpty then ⟨0, 0, 0⟩
  else ⟨(l.map (fun e => e.amount)).sum, l.length, (l.map (fun e => e.amount)).sum / l.length⟩

/-- `parseFloat(x.toFixed(2))` on the nonnegative averages formatted here: round
half up to two decimals. -/
def round2 (x : Rat) : Rat := ((round (x * 100) : Int) : Rat) / 100

structure MonthlySummaryView where
  totalSpent : Rat
  totalExpenses : Nat
  averagePerDay : Rat
  daysInMonth : Nat
deriving DecidableEq

/-- `MonthlyBreakdownResponse.formatMonthlySummary`: `daysInMonth` via
`new Date(year, month, 0).getDate()`, `averagePerDay = totalAmount > 0 ?
totalAmount / daysInMonth : 0` rounded to two decimals, and `totalSpent =
totalAmount || 0` (the identity on numeric totals). -/
def formatMonthlySummary (s : SummaryStats) (month year : Nat) : MonthlySummaryView :=
  let dim := daysInMonth year month
  ⟨s.totalAmount, s.totalExpenses,
   round2 (if 0 < s.totalAmount then s.totalAmount / dim else 0), dim⟩

/-- `$lookup` of the category document by `_id` followed by `$unwind`, which drops
an expense whose category reference resolves to no stored category. -/
def resolveCategory (cats : List Category) (e : Expense) : Option (String × Rat) :=
  (cats.find? (fun c => c.id == e.category)).map (fun c => (c.name, e.amount))

/-- Descending `$sort {value: -1}` comparator of the category distribution. -/
def valueDescLE (a b : String × Rat) : Prop := b.2 ≤ a.2

instance : DecidableRel valueDescLE :=
  fun a b => inferInstanceAs (Decidable (b.2 ≤ a.2))

/-- `MonthlyBreakdownRepository.getMonthlyCategoryDistribution`: `$match` user +
month range, `$lookup`+`$unwind` the category info, `$group` by category name
summing the amounts, `$sort` by value descending. -/
def getMonthlyCategoryDistribution (userId month year : Nat) (st : Store) :
    List (String × Rat) :=
  List.insertionSort valueDescLE
    (groupSum (fun r : String × Rat => r.1) (fun r => r.2)
      ((monthExpenses userId month year st.expenses).filterMap (resolveCategory st.categories)))

theorem sum_map_snd_insertionSort (r : (String × Rat) → (String × Rat) → Prop)
    [DecidableRel r] (l : List (String × Rat)) :
    ((List.insertionSort r l).map (fun p => p.2)).sum = (l.map (fun p => p.2)).sum :=
  ((List.perm_insertionSort r l).map _).sum_eq

theorem dailyAggregate_sum (userId month year : Nat) (es : List Expense) :
    ((dailyBreakdownAggregate userId month year es).map (fun p => p.2)).sum =
      ((monthExpenses userId month year es).map (fun e => e.amount)).sum := by
  unfold dailyBreakdownAggregate
  rw [sum_map_snd_insertionSort, List.map_map]
  have h : ((fun p : String × Rat => p.2) ∘ fun p : SimpleDate × Rat => (isoOfDate p.1, p.2)) =
      fun p : SimpleDate × Rat => p.2 := rfl
  rw [h, groupSum_sum]

theorem dailySimple_sum (userId month year : Nat) (es : List Expense) :
    ((getDailyBreakdownSimple userId month year es).map (fun p => p.2)).sum =
      ((monthExpenses userId month year es).map (fun e => e.amount)).sum := by
  unfold getDailyBreakdownSimple
  rw [sum_map_snd_insertionSort, groupSum_sum]

theorem getDailyBreakdown_sum (aggregateFails : Bool) (userId month year : Nat)
    (es : List Expense) :
    ((getDailyBreakdown aggregateFails userId month year es).map (fun p => p.2)).sum =
      ((monthExpenses userId month year es).map (fun e => e.amount)).sum := by
  unfold getDailyBreakdown
  split
  · exact dailySimple_sum userId month year es
  · exact dailyAggregate_sum userId month year es

theorem filterMap_resolve_sum (cats : List Category) :
    ∀ l : List Expense, (∀ e ∈ l, (resolveCategory cats e).isSome) →
      ((l.filterMap (resolveCategory cats)).map (fun r => r.2)).sum =
        (l.map (fun e => e.amount)).sum
  | [], _ => rfl
  | e :: rest, h => by
      have he := h e (by simp)
      obtain ⟨p, hp⟩ := Option.isSome_iff_exists.mp he
      have hsnd : p.2 = e.amount := by
        unfold resolveCategory at hp
        obtain ⟨c, _, hcp⟩ := Option.map_eq_some'.mp hp
        rw [← hcp]
      have ih := filterMap_resolve_sum cats rest (fun a ha => h a (by simp [ha]))
      simp [List.filterMap_cons, hp, hsnd, ih]

/-- With every category reference of the month resolving, the distribution's values
sum to the month's total amount. -/
theorem distribution_sum (userId month year : Nat) (st : Store)
    (hres : ∀ e ∈ monthExpenses userId month year st.expenses,
      (resolveCategory st.categories e).isSome) :
    ((getMonthlyCategoryDistribution userId month year st).map (fun p => p.2)).sum =
      ((monthExpenses userId month year st.expenses).map (fun e => e.amount)).sum := by
  unfold getMonthlyCategoryDistribution
  rw [sum_map_snd_insertionSort, groupSum_sum]
  exact filterMap_resolve_sum st.categories _ hres

/-! ## Paginated expense listing -/

structure ExpenseFilter where
  category : Option Nat
  dateRange : Option (SimpleDate × SimpleDate)
deriving DecidableEq

/-- The Mongo query `{ createdBy: userId, ...filters }` with the optional category
equality and date-range filters built by `ExpenseController`. -/
def matchesFilter (userId : Nat) (f : ExpenseFilter) (e : Expense) : Bool :=
  e.createdBy == userId &&
    (match f.category with
     | some c => e.category == c
     | none => true) &&
    (match f.dateRange with
     | some r => decide (dateLE r.1 e.date) && decide (dateLE e.date r.2)
     | none => true)

/-- `sort({ date: -1, createdAt: -1 })`: newest date first, ties broken by newest
`createdAt` first. -/
def newerFirst (a b : Expense) : Prop :=
  dateNum b.date < dateNum a.date ∨
    (dateNum b.date = dateNum a.date ∧ b.createdAt ≤ a.createdAt)

instance : DecidableRel newerFirst := fun a b => by unfold newerFirst; infer_instance

instance : IsTotal Expense newerFirst := ⟨fun a b => by unfold newerFirst; omega⟩

instance : IsTrans Expense newerFirst :=
  ⟨fun a b c h₁ h₂ => by unfold newerFirst at h₁ h₂ ⊢; omega⟩

structure Pagination where
  page : Nat
  limit : Nat
  total : Nat
  totalPages : Nat
deriving DecidableEq

structure PagedExpenses where
  data : List Expense
  pagination : Pagination
deriving DecidableEq

/-- `ExpenseRepository.getExpensesForUser`: `countDocuments(query)` plus
`find(query).sort({date: -1, createdAt: -1}).skip((page-1)*limit).limit(limit)`,
with `totalPages = Math.ceil(total / limit)`. -/
def getExpensesForUser (userId page limit : Nat) (f : ExpenseFilter)
    (es : List Expense) : PagedExpenses :=
  let matched := es.filter (matchesFilter userId f)
  let sorted := List.insertionSort newerFirst matched
  ⟨(sorted.drop ((page - 1) * limit)).take limit,
   ⟨page, limit, matched.length, (matched.length + limit - 1) / limit⟩⟩

/-- `MonthlyBreakdownRepository.getMonthlyExpenses`: the same count, sort, skip,
limit and `Math.ceil` pattern over the user's month range. -/
def getMonthlyExpenses (userId month year page limit : Nat) (es : List Expense) :
    PagedExpenses :=
  let matched := monthExpenses userId month year es
  let sorted := List.insertionSort newerFirst matched
  ⟨(sorted.drop ((page - 1) * limit)).take limit,
   ⟨page, limit, matched.length, (matched.length + limit - 1) / limit⟩⟩

theorem chunks_flatMap {α : Type} (L : Nat) :
    ∀ (n : Nat) (l : List α), l.length ≤ n * L →
      (List.range n).flatMap (fun i => (l.drop (i * L)).take L) = l
  | 0, l, h => by
      have hlen : l.length = 0 := by simpa using h
      simp [List.length_eq_zero.mp hlen]
  | n + 1, l, h => by
      rw [List.range_succ_eq_map, List.flatMap_cons, List.flatMap_def,
          List.map_map]
      have hshift : ((fun i => (l.drop (i * L)).take L) ∘ Nat.succ) =
          fun i => ((l.drop L).drop (i * L)).take L := by
        funext i
        simp only [Function.comp]
        rw [List.drop_drop]
        have harg : Nat.succ i * L = L + i * L := by
          rw [Nat.succ_mul]
          omega
        rw [harg]
      have hlen : (l.drop L).length ≤ n * L := by
        rw [add_one_mul] at h
        simp only [List.length_drop]
        omega
      rw [hshift, ← List.flatMap_def, chunks_flatMap L n (l.drop L) hlen]
      simpa using List.take_append_drop L l

theorem le_ceil_mul (N L : Nat) (hL : 0 < L) : N ≤ ((N + L - 1) / L) * L := by
  rcases Nat.eq_zero_or_pos N with h | h
  · simp [h]
  · have h1 : N + L - 1 = (N - 1) + L := by omega
    rw [h1, Nat.add_div_right _ hL]
    have h2 := Nat.div_add_mod (N - 1) L
    have h3 : (N - 1) % L < L := Nat.mod_lt _ hL
    have h4 : ((N - 1) / L + 1) * L = L * ((N - 1) / L) + L := by ring
    omega

/-- `Math.ceil(N / L)` as computed by the repositories, `(N + L - 1) / L`, is the
mathematical ceiling of `N / L`. -/
theorem ceil_div_spec (N L : Nat) (hL : 0 < L) :
    (((N + L - 1) / L : Nat) : Int) = ⌈(N : Rat) / (L : Rat)⌉ := by
  have hL0 : (0 : Rat) < (L : Rat) := by positivity
  symm
  rw [Int.ceil_eq_iff]
  refine ⟨?_, ?_⟩
  · rw [lt_div_iff₀ hL0]
    rcases Nat.eq_zero_or_pos ((N + L - 1) / L) with hq | hq
    · rw [hq]
      push_cast
      have h0 : (0 : Rat) ≤ (N : Rat) := by positivity
      nlinarith
    · obtain ⟨r, hrq⟩ : ∃ r, (N + L - 1) / L = r + 1 := ⟨(N + L - 1) / L - 1, by omega⟩
      have hupper : (N + L - 1) / L * L ≤ N + L - 1 := Nat.div_mul_le_self _ _
      rw [hrq, add_one_mul] at hupper
      have hlt : r * L < N := by omega
      have hc : (r : Rat) * (L : Rat) < (N : Rat) := by exact_mod_cast hlt
      rw [hrq]
      push_cast
      ring_nf
      linarith
  · rw [div_le_iff₀ hL0]
    have := le_ceil_mul N L hL
    exact_mod_cast this

/-! ## Store operations: categories and expenses -/

structure OpResult where
  code : Nat
  ok : Bool
  message : String
  store : Store
deriving DecidableEq

/-- JS `String.prototype.trim`. -/
def jsTrim (s : String) : String :=
  String.mk (((s.toList.dropWhile Char.isWhitespace).reverse.dropWhile
    Char.isWhitespace).reverse)

/-- Case-insensitive full-string test of `new RegExp('^' + pattern + '$', 'i')`,
modelled for patterns whose only regex metacharacter is `'.'` (matching any single
character); all other pattern characters are literal. -/
def regexCIMatch : List Char → List Char → Bool
  | [], [] => true
  | [], _ :: _ => false
  | _ :: _, [] => false
  | p :: ps, _t :: ts => (p == '.' || p.toLower == _t.toLower) && regexCIMatch ps ts

/-- `CategoryRepository.categoryNameExists`: `findOne` with the case-insensitive
`^name$` regex over the default categories and the user's own. -/
def categoryNameExists (name : String) (userId : Nat) (cats : List Category) : Bool :=
  cats.any (fun c =>
    (c.isDefault || c.createdBy == some userId) && regexCIMatch name.toList c.name.toList)

/-- Sort `{ isDefault: -1, name: 1 }` of the category list: default categories
first, then ascending by name. -/
def catListLE (a b : Category) : Prop :=
  (a.isDefault && !b.isDefault) = true ∨ (a.isDefault = b.isDefault ∧ a.name ≤ b.name)

instance : DecidableRel catListLE := fun a b => by unfold catListLE; infer_instance

/-- `CategoryRepository.getCategoriesForUser`: default ∪ own, default-first then
alphabetical. -/
def getCategoriesForUser (userId : Nat) (st : Store) : List Category :=
  List.insertionSort catListLE
    (st.categories.filter (fun c => c.isDefault || c.createdBy == some userId))

/-- `CategoryController.createCategory`: Joi validates the raw name's length
(2..50), `categoryNameExists` is consulted with the trimmed name, and
`Category.create` stores the trimmed name with `isDefault: false`.  A
whitespace-only name passes both checks but fails the mongoose `required`
validator after schema trimming, surfacing as a 500. -/
def createCategory (userId : Nat) (name : String) (newId : Nat) (st : Store) : OpResult :=
  if 2 ≤ name.length ∧ name.length ≤ 50 then
    if categoryNameExists (jsTrim name) userId st.categories then
      ⟨422, false, "Validation failed", st⟩
    else if (jsTrim name).length = 0 then
      ⟨500, false, "Failed to create category", st⟩
    else
      ⟨201, true, "Category created successfully",
       ⟨st.categories ++ [⟨newId, jsTrim name, false, some userId⟩], st.expenses⟩⟩
  else ⟨422, false, "Validation failed", st⟩

/-- Case-insensitive equality `a.toLowerCase() === b.toLowerCase()`. -/
def lowerEq (a b : String) : Bool :=
  a.toList.map Char.toLower == b.toList.map Char.toLower

/-- `CategoryController.updateCategory`: Joi name validation (422), existence
check (404), default and ownership guards (403), duplicate-name check excluding
the category's own current name (422), then `findByIdAndUpdate` with the trimmed
name. -/
def updateCategory (userId catId : Nat) (name : String) (st : Store) : OpResult :=
  if 2 ≤ name.length ∧ name.length ≤ 50 then
    match st.categories.find? (fun c => c.id == catId) with
    | none => ⟨404, false, "Category not found", st⟩
    | some c =>
        if c.isDefault then ⟨403, false, "Cannot update default categories", st⟩
        else if c.createdBy ≠ some userId then
          ⟨403, false, "Not authorized to update this category", st⟩
        else if categoryNameExists (jsTrim name) userId st.categories
            && !lowerEq c.name (jsTrim name) then
          ⟨422, false, "Validation failed", st⟩
        else
          ⟨200, true, "Category updated successfully",
           ⟨st.categories.map (fun c' => if c'.id == catId then
              ⟨c'.id, jsTrim name, c'.isDefault, c'.createdBy⟩ else c'), st.expenses⟩⟩
  else ⟨422, false, "Validation failed", st⟩

/-- `CategoryRepository.deleteCategory` behind `CategoryController.deleteCategory`:
not-found, default and ownership guards, then `findByIdAndDelete` of the category
only — referencing expenses are not touched.  The controller maps every repository
failure to HTTP 400. -/
def deleteCategory (userId catId : Nat) (st : Store) : OpResult :=
  match st.categories.find? (fun c => c.id == catId) with
  | none => ⟨400, false, "Category not found", st⟩
  | some c =>
      if c.isDefault then ⟨400, false, "Cannot delete default categories", st⟩
      else if c.createdBy ≠ some userId then
        ⟨400, false, "Not authorized to delete this category", st⟩
      else
        ⟨200, true, "Category deleted successfully",
         ⟨st.categories.filter (fun c' => !(c'.id == catId)), st.expenses⟩⟩

structure NewExpenseInput where
  title : String
  amount : Rat
  category : Nat
  date : SimpleDate
deriving DecidableEq

/-- `ExpenseRequest.createExpenseSchema`: title 2..100 characters, positive
amount, category required as a non-empty id string (the category's existence is
not checked), ISO date. -/
def validCreateExpense (inp : NewExpenseInput) : Bool :=
  decide (2 ≤ inp.title.length) && decide (inp.title.length ≤ 100) && decide (0 < inp.amount)

/-- `ExpenseController.createExpense`: validate, then `Expense.create` with the
trimmed title and the caller as `createdBy` (a whitespace-only title fails the
mongoose `required` validator after schema trimming, surfacing as a 500). -/
def createExpense (userId : Nat) (inp : NewExpenseInput) (newId newCreatedAt : Nat)
    (st : Store) : OpResult :=
  if validCreateExpense inp then
    if (jsTrim inp.title).length = 0 then
      ⟨500, false, "Failed to create expense", st⟩
    else
      ⟨201, true, "Expense created successfully",
       ⟨st.categories, st.expenses ++
         [⟨newId, jsTrim inp.title, inp.amount, inp.category, inp.date, userId, newCreatedAt⟩]⟩⟩
  else ⟨422, false, "Validation failed", st⟩

structure ExpenseUpdateInput where
  title : Option String
  amount : Option Rat
  category : Option Nat
  date : Option SimpleDate
deriving DecidableEq

/-- `ExpenseRequest.updateExpenseSchema`: each supplied field is validated with
the create-time constraint. -/
def validUpdateExpense (inp : ExpenseUpdateInput) : Bool :=
  (match inp.title with
   | some t => decide (2 ≤ t.length) && decide (t.length ≤ 100)
   | none => true) &&
  (match inp.amount with
   | some a => decide (0 < a)
   | none => true)

/-- The `$set` payload applied by `findOneAndUpdate` (the controller trims a
supplied title). -/
def applyExpenseUpdate (inp : ExpenseUpdateInput) (e : Expense) : Expense :=
  ⟨e.id,
   match inp.title with
   | some t => jsTrim t
   | none => e.title,
   inp.amount.getD e.amount,
   inp.category.getD e.category,
   inp.date.getD e.date,
   e.createdBy,
   e.createdAt⟩

/-- `ExpenseController.updateExpense`: validate the partial payload, then
`findOneAndUpdate({_id: expenseId, createdBy: userId}, {$set: fields})`; no match
is reported as a 404 with `status: false`. -/
def updateExpense (userId expenseId : Nat) (inp : ExpenseUpdateInput) (st : Store) :
    OpResult :=
  if validUpdateExpense inp then
    match st.expenses.find? (fun e => e.id == expenseId && e.createdBy == userId) with
    | none => ⟨404, false, "Expense not found or not authorized", st⟩
    | some _ =>
        ⟨200, true, "Expense updated successfully",
         ⟨st.categories, st.expenses.map (fun e =>
            if e.id == expenseId && e.createdBy == userId then applyExpenseUpdate inp e
            else e)⟩⟩
  else ⟨422, false, "Validation failed", st⟩

/-- `ExpenseRepository.deleteExpense`: `findOne({_id, createdBy})` ownership guard,
then `findByIdAndDelete`; no match is reported as a 404 with `status: false`. -/
def deleteExpense (userId expenseId : Nat) (st : Store) : OpResult :=
  match st.expenses.find? (fun e => e.id == expenseId && e.createdBy == userId) with
  | none => ⟨404, false, "Expense not found or not authorized", st⟩
  | some _ =>
      ⟨200, true, "Expense deleted successfully",
       ⟨st.categories, st.expenses.filter (fun e => !(e.id == expenseId))⟩⟩

/-- The spec's per-expense invariant: positive amount and an existing referenced
category (the single `createdBy` and `category` fields make "exactly one user and
one category" structural). -/
def expenseWellFormed (cats : List Category) (e : Expense) : Prop :=
  0 < e.amount ∧ ∃ c ∈ cats, c.id = e.category

instance (cats : List Category) (e : Expense) : Decidable (expenseWellFormed cats e) := by
  unfold expenseWellFormed; infer_instance

def storeInv (st : Store) : Prop := ∀ e ∈ st.expenses, expenseWellFormed st.categories e

instance (st : Store) : Decidable (storeInv st) := by
  unfold storeInv; infer_instance

/-- The positivity half of the invariant on its own. -/
def amountsPositive (st : Store) : Prop := ∀ e ∈ st.expenses, 0 < e.amount

instance (st : Store) : Decidable (amountsPositive st) := by
  unfold amountsPositive; infer_instance

/-! ## Authentication middleware -/

/-- Outcome of extracting (cookie or bearer header) and `jwt.verify`-ing the
request token: absent, failing signature verification (`JsonWebTokenError`),
expired (`TokenExpiredError`), or verified with the embedded `userId`. -/
inductive TokenState : Type
  | missing : TokenState
  | invalidSig : TokenState
  | expiredTok : TokenState
  | valid : Nat → TokenState
deriving DecidableEq

inductive AuthOutcome : Type
  | reject : Nat → String → AuthOutcome
  | proceed : Nat → AuthOutcome
deriving DecidableEq

/-- `authenticateUser` middleware: 401 with a case-specific message for a missing,
invalid or expired token; with a verified token the embedded `userId` is looked up
in the user store, rejecting with 401 `"Invalid token. User not found."` when no
such user exists, and otherwise attaching the user and proceeding. -/
def authenticateUser (tok : TokenState) (users : List Nat) : AuthOutcome :=
  match tok with
  | .missing => .reject 401 "Access denied. No token provided."
  | .invalidSig => .reject 401 "Invalid token."
  | .expiredTok => .reject 401 "Token expired."
  | .valid uid =>
      if uid ∈ users then .proceed uid
      else .reject 401 "Invalid token. User not found."

def isReject : AuthOutcome → Bool
  | .reject _ _ => true
  | .proceed _ => false

/-! ## The expense list / export date filter -/

/-- The date filter assembled identically by `ExpenseController.getExpenses` and
`ExpenseController.exportExpenses`: a validated month `MM` maps to that month of
`new Date().getFullYear()` (the current year); a supplied startDate/endDate pair
then overwrites `filters.date` entirely. -/
def buildDateFilter (nowYear : Nat) (month : Option Nat)
    (startDate endDate : Option SimpleDate) : Option (SimpleDate × SimpleDate) :=
  let afterMonth :=
    match month with
    | some mm => some (⟨nowYear, mm, 1⟩, ⟨nowYear, mm, daysInMonth nowYear mm⟩)
    | none => none
  match startDate, endDate with
  | some s, some e => some (s, e)
  | _, _ => afterMonth

/-! ## CSV export -/

/-- JS `Array.prototype.join(sep)`. -/
def joinWith (sep : String) : List String → String
  | [] => ""
  | f :: rest => rest.foldl (fun acc g => acc ++ sep ++ g) f

/-- `FormatDate.formatDateForDisplay`: "D Mon YYYY". -/
def monthShortName (m : Nat) : String :=
  ["Jan", "Feb", "Mar", "Apr", "May", "Jun",
   "Jul", "Aug", "Sep", "Oct", "Nov", "Dec"].getD (m - 1) "Jan"

def formatDateForDisplay (d : SimpleDate) : String :=
  toString d.day ++ " " ++ monthShortName d.month ++ " " ++ toString d.year

/-- Stand-in for JS `Number.prototype.toString` on amounts; the exact decimal
rendering is immaterial to the claims proved here. -/
def jsNumberToString (q : Rat) : String := toString q

/-- `MonthlyBreakdownRepository.getMonthlyExpensesForExport`: the month's expenses
sorted newest first, without pagination. -/
def getMonthlyExpensesForExport (userId month year : Nat) (es : List Expense) :
    List Expense :=
  List.insertionSort newerFirst (monthExpenses userId month year es)

/-- One data row built by `exportMonthlyExpenses` from
`MonthlyBreakdownResponse.formatForExport`:
`[title, amount.toString(), category name, formatted date]`. -/
def csvRowOf (cats : List Category) (e : Expense) : List String :=
  [e.title, jsNumberToString e.amount,
   ((cats.find? (fun c => c.id == e.category)).map (fun c => c.name)).getD "",
   formatDateForDisplay e.date]

def csvHeaderRow : List String := ["Title", "Amount", "Category", "Date"]

/-- `MonthlyBreakdownController.exportMonthlyExpenses`: get the month's expenses,
format the rows, wrap every field of the header and of each row in double quotes,
join fields with "," and rows with newlines.  `formatForExport` reads
`expense.category.name`, which throws when the category reference does not resolve
(surfacing as the controller's 500): modelled as `none`. -/
def exportMonthlyExpenses (userId month year : Nat) (st : Store) : Option String :=
  let es := getMonthlyExpensesForExport userId month year st.expenses
  if es.all (fun e => (st.categories.find? (fun c => c.id == e.category)).isSome) then
    some (joinWith "\n"
      ((csvHeaderRow :: es.map (csvRowOf st.categories)).map
        (fun row => joinWith "," (row.map (fun f => "\"" ++ f ++ "\"")))))
  else none

/-- Modelled from the spec: the header line with the four quoted column names,
followed by one newline-preceded line per expense whose four fields are each
enclosed in double quotes. -/
def csvSpecText (cats : List Category) (es : List Expense) : String :=
  es.foldl
    (fun acc e =>
      acc ++ "\n" ++ joinWith "," ((csvRowOf cats e).map (fun f => "\"" ++ f ++ "\"")))
    "\"Title\",\"Amount\",\"Category\",\"Date\""

theorem csvHeader_line :
    joinWith "," (csvHeaderRow.map (fun f => "\"" ++ f ++ "\"")) =
      "\"Title\",\"Amount\",\"Category\",\"Date\"" := by decide

theorem export_eq_spec (userId month year : Nat) (st : Store)
    (hres : (getMonthlyExpensesForExport userId month year st.expenses).all
      (fun e => (st.categories.find? (fun c => c.id == e.category)).isSome) = true) :
    exportMonthlyExpenses userId month year st =
      some (csvSpecText st.categories (getMonthlyExpensesForExport userId month year st.expenses)) := by
  unfold exportMonthlyExpenses
  rw [if_pos hres]
  congr 1
  unfold csvSpecText
  rw [List.map_cons, csvHeader_line]
  show List.foldl _ _ _ = _
  rw [List.foldl_map, List.foldl_map]

/-! ## Helper lemmas about the operations -/

theorem createCategory_expenses (userId : Nat) (name : String) (newId : Nat) (st : Store) :
    (createCategory userId name newId st).store.expenses = st.expenses := by
  unfold createCategory
  split_ifs <;> rfl

theorem updateCategory_expenses (userId catId : Nat) (name : String) (st : Store) :
    (updateCategory userId catId name st).store.expenses = st.expenses := by
  unfold updateCategory
  split
  · split
    · rfl
    · split_ifs <;> rfl
  · rfl

theorem deleteCategory_expenses (userId catId : Nat) (st : Store) :
    (deleteCategory userId catId st).store.expenses = st.expenses := by
  unfold deleteCategory
  split
  · rfl
  · split_ifs <;> rfl

theorem amountsPositive_of_expenses_eq {st st' : Store}
    (h : st'.expenses = st.expenses) (hpos : amountsPositive st) : amountsPositive st' := by
  intro e he
  rw [h] at he
  exact hpos e he

theorem createExpense_pos (userId : Nat) (inp : NewExpenseInput) (newId newTs : Nat)
    (st : Store) (hpos : amountsPositive st) :
    amountsPositive (createExpense userId inp newId newTs st).store := by
  unfold createExpense
  split_ifs with h1 h2
  · exact hpos
  · intro e he
    rcases List.mem_append.mp he with h | h
    · exact hpos e h
    · have he' : e = ⟨newId, jsTrim inp.title, inp.amount, inp.category, inp.date,
          userId, newTs⟩ := by simpa using h
      subst he'
      unfold validCreateExpense at h1
      simp only [Bool.and_eq_true, decide_eq_true_eq] at h1
      exact h1.2
  · exact hpos

theorem updateExpense_pos (userId expenseId : Nat) (inp : ExpenseUpdateInput) (st : Store)
    (hpos : amountsPositive st) :
    amountsPositive (updateExpense userId expenseId inp st).store := by
  unfold updateExpense
  split_ifs with h1
  · split
    · exact hpos
    · intro e he
      obtain ⟨e₀, he₀, heq⟩ := List.mem_map.mp he
      subst heq
      by_cases hcond : (e₀.id == expenseId && e₀.createdBy == userId) = true
      · rw [if_pos hcond]
        show 0 < (applyExpenseUpdate inp e₀).amount
        have hamt : (applyExpenseUpdate inp e₀).amount = inp.amount.getD e₀.amount := rfl
        rw [hamt]
        rcases hA : inp.amount with _ | a
        · simpa using hpos e₀ he₀
        · unfold validUpdateExpense at h1
          rw [hA] at h1
          simp only [Bool.and_eq_true, decide_eq_true_eq] at h1
          simpa using h1.2
      · rw [if_neg hcond]
        exact hpos e₀ he₀
  · exact hpos

theorem deleteExpense_pos (userId expenseId : Nat) (st : Store) (hpos : amountsPositive st) :
    amountsPositive (deleteExpense userId expenseId st).store := by
  unfold deleteExpense
  split
  · exact hpos
  · intro e he
    exact hpos e (List.mem_filter.mp he).1

/-! ## Helper lemmas for the regex-based duplicate check -/

theorem regexCIMatch_true_iff : ∀ (p t : List Char), '.' ∉ p →
    (regexCIMatch p t = true ↔ p.map Char.toLower = t.map Char.toLower)
  | [], [], _ => by simp [regexCIMatch]
  | [], _ :: _, _ => by simp [regexCIMatch]
  | _ :: _, [], _ => by simp [regexCIMatch]
  | p :: ps, t :: ts, h => by
      have hp : (p == '.') = false := by
        simp only [beq_eq_false_iff_ne, ne_eq]
        intro hc
        exact h (hc ▸ List.mem_cons_self p ps)
      have ih := regexCIMatch_true_iff ps ts (fun hc => h (List.mem_cons_of_mem _ hc))
      simp [regexCIMatch, hp, ih]

theorem lowerEq_iff (a b : String) :
    lowerEq a b = true ↔ a.toList.map Char.toLower = b.toList.map Char.toLower := by
  unfold lowerEq
  exact beq_iff_eq

theorem categoryNameExists_iff (name : String) (userId : Nat) (cats : List Category)
    (hdot : '.' ∉ name.toList) :
    categoryNameExists name userId cats = true ↔
      ∃ c ∈ cats, (c.isDefault = true ∨ c.createdBy = some userId) ∧
        lowerEq name c.name = true := by
  unfold categoryNameExists
  rw [List.any_eq_true]
  constructor
  · rintro ⟨c, hc, hcond⟩
    simp only [Bool.and_eq_true, Bool.or_eq_true, beq_iff_eq] at hcond
    refine ⟨c, hc, hcond.1, ?_⟩
    rw [lowerEq_iff]
    exact (regexCIMatch_true_iff _ _ hdot).mp hcond.2
  · rintro ⟨c, hc, hcond, hle⟩
    refine ⟨c, hc, ?_⟩
    simp only [Bool.and_eq_true, Bool.or_eq_true, beq_iff_eq]
    refine ⟨hcond, ?_⟩
    rw [regexCIMatch_true_iff _ _ hdot]
    exact (lowerEq_iff _ _).mp hle

theorem jsTrim_subset (s : String) : ∀ ch ∈ (jsTrim s).toList, ch ∈ s.toList := by
  intro ch hch
  have hch' : ch ∈ (((s.toList.dropWhile Char.isWhitespace).reverse.dropWhile
      Char.isWhitespace).reverse) := hch
  have h1 : ch ∈ (s.toList.dropWhile Char.isWhitespace).reverse.dropWhile
      Char.isWhitespace := List.mem_reverse.mp hch'
  have h2 : ch ∈ (s.toList.dropWhile Char.isWhitespace).reverse :=
    (List.dropWhile_sublist _).subset h1
  have h3 : ch ∈ s.toList.dropWhile Char.isWhitespace := List.mem_reverse.mp h2
  exact (List.dropWhile_sublist _).subset h3

/-! ## Claim C1 -/

theorem getMonthlySummary_totalAmount (userId month year : Nat) (es : List Expense) :
    (getMonthlySummary userId month year es).totalAmount =
      ((monthExpenses userId month year es).map (fun e => e.amount)).sum := by
  simp only [getMonthlySummary]
  by_cases h : (monthExpenses userId month year es).isEmpty
  · rw [if_pos h, List.isEmpty_iff.mp h]
    simp
  · rw [if_neg (by simpa using h)]

theorem totalSpent_eq_sum (userId month year : Nat) (es : List Expense) :
    (formatMonthlySummary (getMonthlySummary userId month year es) month year).totalSpent =
      ((monthExpenses userId month year es).map (fun e => e.amount)).sum := by
  show (getMonthlySummary userId month year es).totalAmount =
    ((monthExpenses userId month year es).map (fun e => e.amount)).sum
  exact getMonthlySummary_totalAmount userId month year es

/-- A store holding one March-2024 expense of amount 10 whose category reference
(99) resolves to no stored category. -/
def c1Store : Store := ⟨[], [⟨1, "Lunch", 10, 99, ⟨2024, 3, 5⟩, 1, 0⟩]⟩

/-- C1 counterexample: with a stored expense whose category reference resolves to
no category — a state the code itself can produce, since category deletion leaves
referencing expenses in place — the `$unwind` of the category distribution drops
the expense, so the distribution values sum to 0 while the summary's `totalSpent`
is 10. -/
theorem c1_distribution_counterexample :
    ¬ (((getMonthlyCategoryDistribution 1 3 2024 c1Store).map (fun p => p.2)).sum =
      (formatMonthlySummary (getMonthlySummary 1 3 2024 c1Store.expenses) 3 2024).totalSpent) := by
  have hdist : getMonthlyCategoryDistribution 1 3 2024 c1Store = [] := by decide
  have hfil : monthExpenses 1 3 2024 c1Store.expenses = c1Store.expenses := by decide
  rw [hdist, totalSpent_eq_sum, hfil]
  simp [c1Store]

/-- C1 (amended): for every valid month/year pair and every store in which each of
the user's expenses dated in that month references an existing category, the daily
breakdown amounts (on either the native or the fallback path) sum to the summary's
`totalSpent`, and so do the category distribution values. -/
theorem monthly_breakdown_sums (aggregateFails : Bool) (userId month year : Nat)
    (st : Store) (hm : 1 ≤ month ∧ month ≤ 12) (hy : 1900 ≤ year ∧ year ≤ 2100)
    (hres : ∀ e ∈ monthExpenses userId month year st.expenses,
      (resolveCategory st.categories e).isSome) :
    ((getDailyBreakdown aggregateFails userId month year st.expenses).map
        (fun p => p.2)).sum =
      (formatMonthlySummary (getMonthlySummary userId month year st.expenses)
        month year).totalSpent ∧
    ((getMonthlyCategoryDistribution userId month year st).map (fun p => p.2)).sum =
      (formatMonthlySummary (getMonthlySummary userId month year st.expenses)
        month year).totalSpent := by
  rw [totalSpent_eq_sum]
  exact ⟨getDailyBreakdown_sum aggregateFails userId month year st.expenses,
         distribution_sum userId month year st hres⟩

/-- A store where the single March-2024 expense's category reference resolves. -/
def c1WitnessStore : Store :=
  ⟨[⟨1, "Food", true, none⟩], [⟨1, "Lunch", 10, 1, ⟨2024, 3, 5⟩, 1, 0⟩]⟩

/-- C1 witness: the amended claim instantiated on a concrete store. -/
theorem monthly_breakdown_sums_witness :
    (1 ≤ 3 ∧ 3 ≤ 12) ∧ (1900 ≤ 2024 ∧ 2024 ≤ 2100) ∧
    (∀ e ∈ monthExpenses 1 3 2024 c1WitnessStore.expenses,
      (resolveCategory c1WitnessStore.categories e).isSome) ∧
    (((getDailyBreakdown false 1 3 2024 c1WitnessStore.expenses).map
        (fun p => p.2)).sum =
      (formatMonthlySummary (getMonthlySummary 1 3 2024 c1WitnessStore.expenses)
        3 2024).totalSpent ∧
    ((getMonthlyCategoryDistribution 1 3 2024 c1WitnessStore).map (fun p => p.2)).sum =
      (formatMonthlySummary (getMonthlySummary 1 3 2024 c1WitnessStore.expenses)
        3 2024).totalSpent) :=
  ⟨by decide, by decide, by decide,
   monthly_breakdown_sums false 1 3 2024 c1WitnessStore (by decide) (by decide) (by decide)⟩

/-! ## Claim C2 -/

/-- C2: the client-side bucketing (`getDailyBreakdownSimple`) produces exactly the
(date, amount) rows of the native daily aggregation, in the same ascending date
order; and whenever the native path fails or yields no rows, the daily breakdown
operation's result is that of the client-side bucketing over the full expense set
of the same range. -/
theorem daily_fallback_equivalence (aggregateFails : Bool) (userId month year : Nat)
    (es : List Expense) (hm : 1 ≤ month ∧ month ≤ 12) (hy : 1900 ≤ year ∧ year ≤ 2100) :
    getDailyBreakdownSimple userId month year es =
      dailyBreakdownAggregate userId month year es ∧
    ((aggregateFails = true ∨ dailyBreakdownAggregate userId month year es = []) →
      getDailyBreakdown aggregateFails userId month year es =
        getDailyBreakdownSimple userId month year es) := by
  have heq := dailySimple_eq_aggregate userId month year es (by omega) (by omega)
  refine ⟨heq, ?_⟩
  intro _
  unfold getDailyBreakdown
  by_cases hf : aggregateFails
  · simp [hf]
  · simp [hf, heq]

/-- Two March-2024 expenses on distinct days, out of order. -/
def c2WitnessExpenses : List Expense :=
  [⟨1, "Coffee", 4, 1, ⟨2024, 3, 2⟩, 1, 1⟩, ⟨2, "Bus", 3, 1, ⟨2024, 3, 1⟩, 1, 2⟩]

/-- C2 witness: the equivalence instantiated on a concrete month and store. -/
theorem daily_fallback_equivalence_witness :
    (1 ≤ 3 ∧ 3 ≤ 12) ∧ (1900 ≤ 2024 ∧ 2024 ≤ 2100) ∧
    (getDailyBreakdownSimple 1 3 2024 c2WitnessExpenses =
      dailyBreakdownAggregate 1 3 2024 c2WitnessExpenses ∧
    ((false = true ∨ dailyBreakdownAggregate 1 3 2024 c2WitnessExpenses = []) →
      getDailyBreakdown false 1 3 2024 c2WitnessExpenses =
        getDailyBreakdownSimple 1 3 2024 c2WitnessExpenses)) :=
  ⟨by decide, by decide,
   daily_fallback_equivalence false 1 3 2024 c2WitnessExpenses (by decide) (by decide)⟩

/-! ## Claim C7 -/

/-- A store whose March-2024 expenses are exactly three of amounts 10, 20, 30,
the third referencing category 99, which does not exist (the reachable state left
by deleting a category, which does not touch referencing expenses). -/
def c7CexStore : Store :=
  ⟨[⟨1, "Food", true, none⟩],
   [⟨1, "A1", 10, 1, ⟨2024, 3, 5⟩, 1, 1⟩,
    ⟨2, "B2", 20, 1, ⟨2024, 3, 10⟩, 1, 2⟩,
    ⟨3, "C3", 30, 99, ⟨2024, 3, 15⟩, 1, 3⟩]⟩

/-- C7 counterexample: the user's stored March-2024 expenses are exactly three of
amounts 10, 20 and 30, yet the category distribution sums to 30, not 60: the
third expense's dangling category reference is dropped by the distribution's
`$lookup`+`$unwind`. -/
theorem c7_distribution_sum_counterexample :
    (monthExpenses 1 3 2024 c7CexStore.expenses).map (fun e => e.amount) =
      [10, 20, 30] ∧
    ¬ (((getMonthlyCategoryDistribution 1 3 2024 c7CexStore).map (fun p => p.2)).sum = 60) := by
  refine ⟨by decide, ?_⟩
  have h1 : ((getMonthlyCategoryDistribution 1 3 2024 c7CexStore).map (fun p => p.2)).sum =
      (((monthExpenses 1 3 2024 c7CexStore.expenses).filterMap
        (resolveCategory c7CexStore.categories)).map (fun p => p.2)).sum := by
    unfold getMonthlyCategoryDistribution
    rw [sum_map_snd_insertionSort, groupSum_sum]
  have h2 : (monthExpenses 1 3 2024 c7CexStore.expenses).filterMap
      (resolveCategory c7CexStore.categories) = [("Food", 10), ("Food", 20)] := by decide
  rw [h1, h2]
  simp
  norm_num

/-- C7 (amended): for a user whose March-2024 expenses are exactly three expenses
of amounts 10, 20 and 30, each referencing an existing category, the formatted
summary has `totalSpent = 60`, `totalExpenses = 3`, `daysInMonth = 31` and
`averagePerDay = 1.94`, and the category distribution values sum to 60; without
the resolving-references proviso the distribution conjunct fails. -/
theorem march_2024_example (userId : Nat) (st : Store) (e₁ e₂ e₃ : Expense)
    (hfil : monthExpenses userId 3 2024 st.expenses = [e₁, e₂, e₃])
    (h₁ : e₁.amount = 10) (h₂ : e₂.amount = 20) (h₃ : e₃.amount = 30)
    (hres : ∀ e ∈ monthExpenses userId 3 2024 st.expenses,
      (resolveCategory st.categories e).isSome) :
    (formatMonthlySummary (getMonthlySummary userId 3 2024 st.expenses)
      3 2024).totalSpent = 60 ∧
    (formatMonthlySummary (getMonthlySummary userId 3 2024 st.expenses)
      3 2024).totalExpenses = 3 ∧
    (formatMonthlySummary (getMonthlySummary userId 3 2024 st.expenses)
      3 2024).daysInMonth = 31 ∧
    (formatMonthlySummary (getMonthlySummary userId 3 2024 st.expenses)
      3 2024).averagePerDay = 1.94 ∧
    ((getMonthlyCategoryDistribution userId 3 2024 st).map (fun p => p.2)).sum = 60 := by
  have hsum : ((monthExpenses userId 3 2024 st.expenses).map (fun e => e.amount)).sum = 60 := by
    rw [hfil]
    simp [h₁, h₂, h₃]
    norm_num
  have hdim : daysInMonth 2024 3 = 31 := by decide
  have hsum3 : getMonthlySummary userId 3 2024 st.expenses = ⟨60, 3, 20⟩ := by
    unfold getMonthlySummary
    rw [hfil]
    simp [h₁, h₂, h₃]
    norm_num
  refine ⟨?_, ?_, ?_, ?_, ?_⟩
  · rw [totalSpent_eq_sum, hsum]
  · unfold formatMonthlySummary
    rw [hsum3]
  · unfold formatMonthlySummary
    exact hdim
  · unfold formatMonthlySummary
    rw [hsum3, hdim]
    show round2 (if (0 : Rat) < 60 then (60 : Rat) / ((31 : Nat) : Rat) else 0) = 1.94
    rw [if_pos (by norm_num)]
    unfold round2
    rw [round_eq]
    norm_num
  · rw [distribution_sum userId 3 2024 st hres, hsum]

/-- A store whose March-2024 expenses are exactly three of amounts 10, 20, 30. -/
def c7Store : Store :=
  ⟨[⟨1, "Food", true, none⟩],
   [⟨1, "A1", 10, 1, ⟨2024, 3, 5⟩, 1, 1⟩,
    ⟨2, "B2", 20, 1, ⟨2024, 3, 10⟩, 1, 2⟩,
    ⟨3, "C3", 30, 1, ⟨2024, 3, 15⟩, 1, 3⟩]⟩

/-- C7 witness: the example instantiated on a concrete store. -/
theorem march_2024_example_witness :
    (monthExpenses 1 3 2024 c7Store.expenses =
      [⟨1, "A1", 10, 1, ⟨2024, 3, 5⟩, 1, 1⟩,
       ⟨2, "B2", 20, 1, ⟨2024, 3, 10⟩, 1, 2⟩,
       ⟨3, "C3", 30, 1, ⟨2024, 3, 15⟩, 1, 3⟩]) ∧
    (∀ e ∈ monthExpenses 1 3 2024 c7Store.expenses,
      (resolveCategory c7Store.categories e).isSome) ∧
    ((formatMonthlySummary (getMonthlySummary 1 3 2024 c7Store.expenses)
        3 2024).totalSpent = 60 ∧
     (formatMonthlySummary (getMonthlySummary 1 3 2024 c7Store.expenses)
        3 2024).totalExpenses = 3 ∧
     (formatMonthlySummary (getMonthlySummary 1 3 2024 c7Store.expenses)
        3 2024).daysInMonth = 31 ∧
     (formatMonthlySummary (getMonthlySummary 1 3 2024 c7Store.expenses)
        3 2024).averagePerDay = 1.94 ∧
     ((getMonthlyCategoryDistribution 1 3 2024 c7Store).map (fun p => p.2)).sum = 60) :=
  ⟨by decide, by decide,
   march_2024_example 1 c7Store
     ⟨1, "A1", 10, 1, ⟨2024, 3, 5⟩, 1, 1⟩
     ⟨2, "B2", 20, 1, ⟨2024, 3, 10⟩, 1, 2⟩
     ⟨3, "C3", 30, 1, ⟨2024, 3, 15⟩, 1, 3⟩
     (by decide) rfl rfl rfl (by decide)⟩

/-! ## Claim C3 -/

/-- A store with one user category and one expense referencing it. -/
def c3Store : Store :=
  ⟨[⟨1, "Gym", false, some 1⟩], [⟨10, "Membership", 5, 1, ⟨2024, 3, 5⟩, 1, 100⟩]⟩

/-- C3 counterexample: deleting the referenced category succeeds and leaves the
expense dangling, breaking the referential-integrity invariant; and creating an
expense whose category reference (99) names no existing category also succeeds. -/
theorem c3_invariant_counterexample :
    storeInv c3Store ∧
    (deleteCategory 1 1 c3Store).ok = true ∧
    ¬ storeInv (deleteCategory 1 1 c3Store).store ∧
    (createExpense 1 ⟨"Taxi", 7, 99, ⟨2024, 3, 6⟩⟩ 11 101 c3Store).ok = true ∧
    ¬ storeInv (createExpense 1 ⟨"Taxi", 7, 99, ⟨2024, 3, 6⟩⟩ 11 101 c3Store).store :=
  ⟨by decide, by decide, by decide, by decide, by decide⟩

/-- C3 (amended): every operation preserves single-owner scoping (structural) and
`amount > 0` (validation rejects non-positive amounts), but referential integrity
is not maintained: category deletion removes only the category document, leaving
referencing expenses untouched, and expense creation succeeds for any category id
that passes the string validation, without an existence check. -/
theorem operations_invariants (st : Store) (hpos : amountsPositive st)
    (userId catId expenseId newId newTs : Nat) (name : String)
    (inpC : NewExpenseInput) (inpU : ExpenseUpdateInput) :
    amountsPositive (createCategory userId name newId st).store ∧
    amountsPositive (updateCategory userId catId name st).store ∧
    amountsPositive (deleteCategory userId catId st).store ∧
    amountsPositive (createExpense userId inpC newId newTs st).store ∧
    amountsPositive (updateExpense userId expenseId inpU st).store ∧
    amountsPositive (deleteExpense userId expenseId st).store ∧
    (deleteCategory userId catId st).store.expenses = st.expenses ∧
    (validCreateExpense inpC = true → 1 ≤ (jsTrim inpC.title).length →
      (createExpense userId inpC newId newTs st).ok = true) := by
  refine ⟨amountsPositive_of_expenses_eq (createCategory_expenses userId name newId st) hpos,
          amountsPositive_of_expenses_eq (updateCategory_expenses userId catId name st) hpos,
          amountsPositive_of_expenses_eq (deleteCategory_expenses userId catId st) hpos,
          createExpense_pos userId inpC newId newTs st hpos,
          updateExpense_pos userId expenseId inpU st hpos,
          deleteExpense_pos userId expenseId st hpos,
          deleteCategory_expenses userId catId st, ?_⟩
  intro hv hlen
  unfold createExpense
  rw [if_pos hv, if_neg (by omega)]

/-- C3 witness: the amended claim instantiated on a concrete store. -/
theorem operations_invariants_witness :
    amountsPositive c3Store ∧
    (amountsPositive (createCategory 1 "Books" 5 c3Store).store ∧
     amountsPositive (updateCategory 1 1 "Books" c3Store).store ∧
     amountsPositive (deleteCategory 1 1 c3Store).store ∧
     amountsPositive (createExpense 1 ⟨"Taxi", 7, 99, ⟨2024, 3, 6⟩⟩ 11 101 c3Store).store ∧
     amountsPositive (updateExpense 1 10 ⟨none, none, none, none⟩ c3Store).store ∧
     amountsPositive (deleteExpense 1 10 c3Store).store ∧
     (deleteCategory 1 1 c3Store).store.expenses = c3Store.expenses ∧
     (validCreateExpense ⟨"Taxi", 7, 99, ⟨2024, 3, 6⟩⟩ = true →
       1 ≤ (jsTrim ("Taxi" : String)).length →
       (createExpense 1 ⟨"Taxi", 7, 99, ⟨2024, 3, 6⟩⟩ 11 101 c3Store).ok = true)) :=
  ⟨by decide,
   operations_invariants c3Store (by decide) 1 1 10 11 101 "Books"
     ⟨"Taxi", 7, 99, ⟨2024, 3, 6⟩⟩ ⟨none, none, none, none⟩⟩

/-! ## Claim C4 -/

/-- C4: with limit `1 ≤ L ≤ 100`, `totalPages` is the ceiling of `N / L`, and the
page data arrays for pages `1 .. totalPages`, concatenated in order, are exactly
the filtered set sorted by date descending then `createdAt` descending — a
permutation of the filtered set, so each element appears exactly once.  The same
holds for the month-scoped listing. -/
theorem pagination_reconstructs (userId month year L : Nat) (f : ExpenseFilter)
    (es : List Expense) (hL : 1 ≤ L) (hL' : L ≤ 100) :
    (((getExpensesForUser userId 1 L f es).pagination.totalPages : Nat) : Int) =
      ⌈((es.filter (matchesFilter userId f)).length : Rat) / (L : Rat)⌉ ∧
    (List.range (getExpensesForUser userId 1 L f es).pagination.totalPages).flatMap
        (fun i => (getExpensesForUser userId (i + 1) L f es).data) =
      List.insertionSort newerFirst (es.filter (matchesFilter userId f)) ∧
    (List.insertionSort newerFirst (es.filter (matchesFilter userId f))).Perm
      (es.filter (matchesFilter userId f)) ∧
    List.Sorted newerFirst
      (List.insertionSort newerFirst (es.filter (matchesFilter userId f))) ∧
    (((getMonthlyExpenses userId month year 1 L es).pagination.totalPages : Nat) : Int) =
      ⌈((monthExpenses userId month year es).length : Rat) / (L : Rat)⌉ ∧
    (List.range (getMonthlyExpenses userId month year 1 L es).pagination.totalPages).flatMap
        (fun i => (getMonthlyExpenses userId month year (i + 1) L es).data) =
      List.insertionSort newerFirst (monthExpenses userId month year es) := by
  have hL0 : 0 < L := hL
  refine ⟨ceil_div_spec _ L hL0, ?_, List.perm_insertionSort _ _,
          List.sorted_insertionSort _ _, ceil_div_spec _ L hL0, ?_⟩
  · apply chunks_flatMap L
    rw [(List.perm_insertionSort newerFirst _).length_eq]
    exact le_ceil_mul _ L hL0
  · apply chunks_flatMap L
    rw [(List.perm_insertionSort newerFirst _).length_eq]
    exact le_ceil_mul _ L hL0

/-- Three March-2024 expenses of one user. -/
def c4WitnessExpenses : List Expense :=
  [⟨1, "A1", 5, 1, ⟨2024, 3, 1⟩, 1, 1⟩, ⟨2, "B2", 6, 1, ⟨2024, 3, 2⟩, 1, 2⟩,
   ⟨3, "C3", 7, 1, ⟨2024, 3, 3⟩, 1, 3⟩]

/-- C4 witness: the pagination invariant instantiated at limit 2 over three
expenses. -/
theorem pagination_reconstructs_witness :
    1 ≤ 2 ∧ 2 ≤ 100 ∧
    ((((getExpensesForUser 1 1 2 ⟨none, none⟩ c4WitnessExpenses).pagination.totalPages :
        Nat) : Int) =
      ⌈((c4WitnessExpenses.filter (matchesFilter 1 ⟨none, none⟩)).length : Rat) /
        ((2 : Nat) : Rat)⌉ ∧
    (List.range (getExpensesForUser 1 1 2 ⟨none, none⟩
        c4WitnessExpenses).pagination.totalPages).flatMap
        (fun i => (getExpensesForUser 1 (i + 1) 2 ⟨none, none⟩ c4WitnessExpenses).data) =
      List.insertionSort newerFirst (c4WitnessExpenses.filter (matchesFilter 1 ⟨none, none⟩)) ∧
    (List.insertionSort newerFirst
        (c4WitnessExpenses.filter (matchesFilter 1 ⟨none, none⟩))).Perm
      (c4WitnessExpenses.filter (matchesFilter 1 ⟨none, none⟩)) ∧
    List.Sorted newerFirst
      (List.insertionSort newerFirst
        (c4WitnessExpenses.filter (matchesFilter 1 ⟨none, none⟩))) ∧
    (((getMonthlyExpenses 1 3 2024 1 2 c4WitnessExpenses).pagination.totalPages :
        Nat) : Int) =
      ⌈((monthExpenses 1 3 2024 c4WitnessExpenses).length : Rat) / ((2 : Nat) : Rat)⌉ ∧
    (List.range (getMonthlyExpenses 1 3 2024 1 2
        c4WitnessExpenses).pagination.totalPages).flatMap
        (fun i => (getMonthlyExpenses 1 3 2024 (i + 1) 2 c4WitnessExpenses).data) =
      List.insertionSort newerFirst (monthExpenses 1 3 2024 c4WitnessExpenses)) :=
  ⟨by decide, by decide,
   pagination_reconstructs 1 3 2024 2 ⟨none, none⟩ c4WitnessExpenses (by decide) (by decide)⟩

/-! ## Claim C5 -/

/-- A store with a non-default category owned by user 2. -/
def c5Store : Store := ⟨[⟨2, "Gym", false, some 2⟩], []⟩

/-- C5 counterexample: user 1's attempt to delete user 2's category fails with
`status: false` and leaves the store unchanged, but surfaces as HTTP 400 (the
category delete controller maps every repository failure to 400), not as a
403/404. -/
theorem c5_delete_code_counterexample :
    (deleteCategory 1 2 c5Store).ok = false ∧
    (deleteCategory 1 2 c5Store).store = c5Store ∧
    (deleteCategory 1 2 c5Store).code = 400 ∧
    ¬ ((deleteCategory 1 2 c5Store).code = 403 ∨ (deleteCategory 1 2 c5Store).code = 404) :=
  ⟨by decide, by decide, by decide, by decide⟩

/-- C5 (amended): update and delete attempts on another user's expense or
category, or on a default category, fail with `status: false` and leave the store
unchanged; expense update/delete report 404 (update may instead 422 on an invalid
payload), category update reports 403 (or 422 on an invalid name), and category
delete reports HTTP 400. -/
theorem ownership_protection (st : Store) (userId : Nat)
    (e : Expense) (he : e ∈ st.expenses) (hown : e.createdBy ≠ userId)
    (heuniq : ∀ e' ∈ st.expenses, e'.id = e.id → e' = e)
    (c : Category) (hc : c ∈ st.categories)
    (hcden : c.isDefault = true ∨ c.createdBy ≠ some userId)
    (hcuniq : ∀ c' ∈ st.categories, c'.id = c.id → c' = c)
    (inpU : ExpenseUpdateInput) (name : String) :
    ((updateExpense userId e.id inpU st).ok = false ∧
     (updateExpense userId e.id inpU st).store = st ∧
     ((updateExpense userId e.id inpU st).code = 404 ∨
      (updateExpense userId e.id inpU st).code = 422)) ∧
    ((deleteExpense userId e.id st).ok = false ∧
     (deleteExpense userId e.id st).store = st ∧
     (deleteExpense userId e.id st).code = 404) ∧
    ((updateCategory userId c.id name st).ok = false ∧
     (updateCategory userId c.id name st).store = st ∧
     ((updateCategory userId c.id name st).code = 403 ∨
      (updateCategory userId c.id name st).code = 422)) ∧
    ((deleteCategory userId c.id st).ok = false ∧
     (deleteCategory userId c.id st).store = st ∧
     (deleteCategory userId c.id st).code = 400) := by
  have hfindE : st.expenses.find?
      (fun e' => e'.id == e.id && e'.createdBy == userId) = none := by
    rw [List.find?_eq_none]
    intro x hx hpx
    simp only [Bool.and_eq_true, beq_iff_eq] at hpx
    have hxe := heuniq x hx hpx.1
    rw [hxe] at hpx
    exact hown hpx.2
  have hfindC : st.categories.find? (fun c' => c'.id == c.id) = some c := by
    rcases hfc : st.categories.find? (fun c' => c'.id == c.id) with _ | y
    · exfalso
      rw [List.find?_eq_none] at hfc
      exact hfc c hc (by simp)
    · have hy := List.find?_some hfc
      simp only [beq_iff_eq] at hy
      rw [hfc, hcuniq y (List.mem_of_find?_eq_some hfc) hy]
  refine ⟨?_, ?_, ?_, ?_⟩
  · unfold updateExpense
    by_cases hv : validUpdateExpense inpU
    · rw [if_pos hv]
      simp [hfindE]
    · rw [if_neg hv]
      simp
  · unfold deleteExpense
    simp [hfindE]
  · unfold updateCategory
    by_cases hv : 2 ≤ name.length ∧ name.length ≤ 50
    · rw [if_pos hv]
      simp only [hfindC]
      by_cases hd : c.isDefault = true
      · rw [if_pos hd]
        simp
      · rw [if_neg hd, if_pos (hcden.resolve_left hd)]
        simp
    · rw [if_neg hv]
      simp
  · unfold deleteCategory
    simp only [hfindC]
    by_cases hd : c.isDefault = true
    · rw [if_pos hd]
      simp
    · rw [if_neg hd, if_pos (hcden.resolve_left hd)]
      simp

/-- A store with user 2's category and user 2's expense, targeted by user 1. -/
def c5WitnessStore : Store :=
  ⟨[⟨2, "Gym", false, some 2⟩], [⟨7, "Snack", 3, 2, ⟨2024, 3, 4⟩, 2, 9⟩]⟩

/-- C5 witness: the amended claim applied with user 1 attacking user 2's records. -/
theorem ownership_protection_witness :
    ((updateExpense 1 7 ⟨none, none, none, none⟩ c5WitnessStore).ok = false ∧
     (updateExpense 1 7 ⟨none, none, none, none⟩ c5WitnessStore).store = c5WitnessStore ∧
     ((updateExpense 1 7 ⟨none, none, none, none⟩ c5WitnessStore).code = 404 ∨
      (updateExpense 1 7 ⟨none, none, none, none⟩ c5WitnessStore).code = 422)) ∧
    ((deleteExpense 1 7 c5WitnessStore).ok = false ∧
     (deleteExpense 1 7 c5WitnessStore).store = c5WitnessStore ∧
     (deleteExpense 1 7 c5WitnessStore).code = 404) ∧
    ((updateCategory 1 2 "Stuff" c5WitnessStore).ok = false ∧
     (updateCategory 1 2 "Stuff" c5WitnessStore).store = c5WitnessStore ∧
     ((updateCategory 1 2 "Stuff" c5WitnessStore).code = 403 ∨
      (updateCategory 1 2 "Stuff" c5WitnessStore).code = 422)) ∧
    ((deleteCategory 1 2 c5WitnessStore).ok = false ∧
     (deleteCategory 1 2 c5WitnessStore).store = c5WitnessStore ∧
     (deleteCategory 1 2 c5WitnessStore).code = 400) :=
  ownership_protection c5WitnessStore 1
    ⟨7, "Snack", 3, 2, ⟨2024, 3, 4⟩, 2, 9⟩ (by decide) (by decide) (by decide)
    ⟨2, "Gym", false, some 2⟩ (by decide) (by decide) (by decide)
    ⟨none, none, none, none⟩ "Stuff"

/-! ## Claim C6 -/

/-- A store holding only the default category "Food". -/
def c6Store : Store := ⟨[⟨1, "Food", true, none⟩], []⟩

/-- C6 counterexample: creating "Fo.d" fails with a duplicate-name 422 although no
existing name equals it case-insensitively (the duplicate check treats the raw
name as a regex, and `.` matches the third letter of "Food"); and the
whitespace-only name "  " has length 2 and no duplicate yet fails with a 500. -/
theorem c6_create_iff_counterexample :
    ((2 ≤ ("Fo.d" : String).length ∧ ("Fo.d" : String).length ≤ 50) ∧
     (∀ c ∈ c6Store.categories, (c.isDefault = true ∨ c.createdBy = some 1) →
       lowerEq (jsTrim "Fo.d") c.name = false) ∧
     (createCategory 1 "Fo.d" 7 c6Store).ok = false ∧
     (createCategory 1 "Fo.d" 7 c6Store).code = 422 ∧
     (createCategory 1 "Fo.d" 7 c6Store).store = c6Store) ∧
    ((2 ≤ ("  " : String).length ∧ ("  " : String).length ≤ 50) ∧
     (∀ c ∈ c6Store.categories, (c.isDefault = true ∨ c.createdBy = some 1) →
       lowerEq (jsTrim "  ") c.name = false) ∧
     (createCategory 1 "  " 9 c6Store).ok = false ∧
     (createCategory 1 "  " 9 c6Store).code = 500 ∧
     (createCategory 1 "  " 9 c6Store).store = c6Store) := by decide

/-- The metacharacters of JS regular expressions. -/
def jsRegexMeta : List Char :=
  ['.', '*', '+', '?', '^', '$', '(', ')', '[', ']', '|', '\\'] ++
    [Char.ofNat 123, Char.ofNat 125]

/-- C6 (amended): for a name free of regex metacharacters (the duplicate check
builds a regex from the raw name), creation succeeds — 201, the record appended
with the trimmed name and `isDefault = false` and appearing in the user's category
list — exactly when the raw length is 2..50, the trimmed name is non-empty (the
mongoose `required` validator rejects whitespace-only names with a 500) and no
default or own category name equals the trimmed name case-insensitively; on any
failure the store is unchanged and a 422 or 500 error is returned. -/
theorem create_category_iff (userId newId : Nat) (name : String) (st : Store)
    (hmeta : ∀ ch ∈ name.toList, ch ∉ jsRegexMeta) :
    (((createCategory userId name newId st).code = 201 ∧
      (createCategory userId name newId st).store =
        ⟨st.categories ++ [⟨newId, jsTrim name, false, some userId⟩], st.expenses⟩ ∧
      (⟨newId, jsTrim name, false, some userId⟩ : Category) ∈
        getCategoriesForUser userId (createCategory userId name newId st).store) ↔
     (2 ≤ name.length ∧ name.length ≤ 50 ∧ 1 ≤ (jsTrim name).length ∧
      ∀ c ∈ st.categories, (c.isDefault = true ∨ c.createdBy = some userId) →
        lowerEq (jsTrim name) c.name = false)) ∧
    ((createCategory userId name newId st).ok = false →
      (createCategory userId name newId st).store = st ∧
      ((createCategory userId name newId st).code = 422 ∨
       (createCategory userId name newId st).code = 500)) := by
  have hdot : '.' ∉ (jsTrim name).toList := fun hch =>
    (hmeta '.' (jsTrim_subset name '.' hch)) (by simp [jsRegexMeta])
  have hex := categoryNameExists_iff (jsTrim name) userId st.categories hdot
  by_cases hlen : 2 ≤ name.length ∧ name.length ≤ 50
  · unfold createCategory
    rw [if_pos hlen]
    by_cases hdup : categoryNameExists (jsTrim name) userId st.categories = true
    · rw [if_pos hdup]
      constructor
      · constructor
        · rintro ⟨hcode, _, _⟩
          simp at hcode
        · rintro ⟨_, _, _, hnone⟩
          exfalso
          obtain ⟨c, hcmem, hcown, hceq⟩ := hex.mp hdup
          have hF := hnone c hcmem hcown
          simp [hF] at hceq
      · intro _
        exact ⟨rfl, Or.inl rfl⟩
    · rw [if_neg hdup]
      by_cases hws : (jsTrim name).length = 0
      · rw [if_pos hws]
        constructor
        · constructor
          · rintro ⟨hcode, _, _⟩
            simp at hcode
          · rintro ⟨_, _, hlen1, _⟩
            omega
        · intro _
          exact ⟨rfl, Or.inr rfl⟩
      · rw [if_neg hws]
        constructor
        · constructor
          · intro _
            refine ⟨hlen.1, hlen.2, by omega, ?_⟩
            intro c hcmem hcown
            by_contra hF
            have hT : lowerEq (jsTrim name) c.name = true := by
              cases hLE : lowerEq (jsTrim name) c.name
              · exact absurd hLE hF
              · rfl
            exact hdup (hex.mpr ⟨c, hcmem, hcown, hT⟩)
          · intro _
            refine ⟨rfl, rfl, ?_⟩
            have hmem : (⟨newId, jsTrim name, false, some userId⟩ : Category) ∈
                (st.categories ++ [(⟨newId, jsTrim name, false, some userId⟩ : Category)]).filter
                  (fun c => c.isDefault || c.createdBy == some userId) := by
              rw [List.mem_filter]
              refine ⟨List.mem_append_right _ (by simp), by simp⟩
            show (⟨newId, jsTrim name, false, some userId⟩ : Category) ∈
              List.insertionSort catListLE
                ((st.categories ++ [(⟨newId, jsTrim name, false, some userId⟩ : Category)]).filter
                  (fun c => c.isDefault || c.createdBy == some userId))
            exact (List.perm_insertionSort catListLE _).mem_iff.mpr hmem
        · intro hok
          simp at hok
  · unfold createCategory
    rw [if_neg hlen]
    constructor
    · constructor
      · rintro ⟨hcode, _, _⟩
        simp at hcode
      · rintro ⟨h1, h2, _⟩
        exact absurd ⟨h1, h2⟩ hlen
    · intro _
      exact ⟨rfl, Or.inl rfl⟩

/-- C6 witness: the amended claim applied to creating "Drinks" over the default
"Food". -/
theorem create_category_iff_witness :
    (∀ ch ∈ ("Drinks" : String).toList, ch ∉ jsRegexMeta) ∧
    ((((createCategory 1 "Drinks" 7 c6Store).code = 201 ∧
      (createCategory 1 "Drinks" 7 c6Store).store =
        ⟨c6Store.categories ++ [⟨7, jsTrim "Drinks", false, some 1⟩], c6Store.expenses⟩ ∧
      (⟨7, jsTrim "Drinks", false, some 1⟩ : Category) ∈
        getCategoriesForUser 1 (createCategory 1 "Drinks" 7 c6Store).store) ↔
     (2 ≤ ("Drinks" : String).length ∧ ("Drinks" : String).length ≤ 50 ∧
      1 ≤ (jsTrim "Drinks").length ∧
      ∀ c ∈ c6Store.categories, (c.isDefault = true ∨ c.createdBy = some 1) →
        lowerEq (jsTrim "Drinks") c.name = false)) ∧
    ((createCategory 1 "Drinks" 7 c6Store).ok = false →
      (createCategory 1 "Drinks" 7 c6Store).store = c6Store ∧
      ((createCategory 1 "Drinks" 7 c6Store).code = 422 ∨
       (createCategory 1 "Drinks" 7 c6Store).code = 500))) :=
  ⟨by decide, create_category_iff 1 7 "Drinks" c6Store (by decide)⟩

/-! ## Claim C8 -/

/-- A store with one March-2024 expense whose category reference (99) resolves to
no stored category. -/
def c8CexStore : Store := ⟨[], [⟨1, "Lunch", 10, 99, ⟨2024, 3, 5⟩, 1, 0⟩]⟩

/-- C8 counterexample: with a non-empty filtered month set containing a dangling
category reference — a state category deletion can produce — `formatForExport`
throws on `expense.category.name` and the endpoint answers 500 with no CSV
(modelled as `none`), so no header-plus-one-row-per-expense text is produced. -/
theorem c8_export_crash_counterexample :
    monthExpenses 1 3 2024 c8CexStore.expenses ≠ [] ∧
    exportMonthlyExpenses 1 3 2024 c8CexStore = none := by decide

/-- C8 (amended): for every user, month and year such that every expense of the
filtered month set references an existing category, the CSV export is the header
row of exactly the four columns Title, Amount, Category, Date followed by one row
per expense of the set (newest first), every field — headers included — enclosed
in double quotes and rows joined by newlines: stated as equality with a formatter
transliterated from the spec's words.  With a dangling reference the export
instead fails with a 500 and produces no CSV. -/
theorem export_csv_shape (userId month year : Nat) (st : Store)
    (hres : (getMonthlyExpensesForExport userId month year st.expenses).all
      (fun e => (st.categories.find? (fun c => c.id == e.category)).isSome) = true) :
    exportMonthlyExpenses userId month year st =
      some (csvSpecText st.categories
        (getMonthlyExpensesForExport userId month year st.expenses)) ∧
    csvHeaderRow = ["Title", "Amount", "Category", "Date"] ∧
    (∀ e : Expense, (csvRowOf st.categories e).length = 4) ∧
    (getMonthlyExpensesForExport userId month year st.expenses).Perm
      (monthExpenses userId month year st.expenses) :=
  ⟨export_eq_spec userId month year st hres, rfl, fun _ => rfl,
   List.perm_insertionSort _ _⟩

/-- A store with one resolving March-2024 expense. -/
def c8Store : Store :=
  ⟨[⟨1, "Food", true, none⟩], [⟨1, "Lunch", 10, 1, ⟨2024, 3, 5⟩, 1, 0⟩]⟩

/-- C8 witness: the export shape applied at a concrete store. -/
theorem export_csv_shape_witness :
    ((getMonthlyExpensesForExport 1 3 2024 c8Store.expenses).all
      (fun e => (c8Store.categories.find? (fun c => c.id == e.category)).isSome) = true) ∧
    (exportMonthlyExpenses 1 3 2024 c8Store =
      some (csvSpecText c8Store.categories
        (getMonthlyExpensesForExport 1 3 2024 c8Store.expenses)) ∧
     csvHeaderRow = ["Title", "Amount", "Category", "Date"] ∧
     (∀ e : Expense, (csvRowOf c8Store.categories e).length = 4) ∧
     (getMonthlyExpensesForExport 1 3 2024 c8Store.expenses).Perm
       (monthExpenses 1 3 2024 c8Store.expenses)) :=
  ⟨by decide, export_csv_shape 1 3 2024 c8Store (by decide)⟩

/-! ## Claim C9 -/

/-- C9 counterexample: a verified, unexpired token whose `userId` resolves to no
stored user is rejected with 401 — a fourth rejection case beyond
missing/invalid/expired, with its own message. -/
theorem auth_user_not_found_counterexample :
    authenticateUser (TokenState.valid 5) [] =
      AuthOutcome.reject 401 "Invalid token. User not found." ∧
    isReject (authenticateUser (TokenState.valid 5) []) = true ∧
    TokenState.valid 5 ≠ TokenState.missing ∧
    TokenState.valid 5 ≠ TokenState.invalidSig ∧
    TokenState.valid 5 ≠ TokenState.expiredTok := by decide

/-- C9 (amended): the middleware rejects with a 401 JSON error exactly when the
token is missing, fails signature verification, is expired, or is valid but its
`userId` resolves to no stored user; the four cases carry the distinct messages of
the source, and a valid token resolving to an existing user proceeds. -/
theorem auth_middleware_spec (tok : TokenState) (users : List Nat) :
    (isReject (authenticateUser tok users) = true ↔
      tok = TokenState.missing ∨ tok = TokenState.invalidSig ∨
      tok = TokenState.expiredTok ∨
      (∃ uid, tok = TokenState.valid uid ∧ uid ∉ users)) ∧
    authenticateUser TokenState.missing users =
      AuthOutcome.reject 401 "Access denied. No token provided." ∧
    authenticateUser TokenState.invalidSig users =
      AuthOutcome.reject 401 "Invalid token." ∧
    authenticateUser TokenState.expiredTok users =
      AuthOutcome.reject 401 "Token expired." ∧
    (∀ uid ∈ users,
      authenticateUser (TokenState.valid uid) users = AuthOutcome.proceed uid) ∧
    (∀ uid, uid ∉ users → authenticateUser (TokenState.valid uid) users =
      AuthOutcome.reject 401 "Invalid token. User not found.") := by
  refine ⟨?_, rfl, rfl, rfl, ?_, ?_⟩
  · cases tok with
    | missing => simp [authenticateUser, isReject]
    | invalidSig => simp [authenticateUser, isReject]
    | expiredTok => simp [authenticateUser, isReject]
    | valid uid =>
        by_cases h : uid ∈ users
        · simp [authenticateUser, isReject, h]
        · simp [authenticateUser, isReject, h]
  · intro uid h
    simp [authenticateUser, h]
  · intro uid h
    simp [authenticateUser, h]

/-- C9 witness: a valid token resolving to an existing user proceeds. -/
theorem auth_middleware_spec_witness :
    authenticateUser (TokenState.valid 5) [5] = AuthOutcome.proceed 5 :=
  (auth_middleware_spec (TokenState.valid 5) [5]).2.2.2.2.1 5 (by decide)

/-! ## Claim C10 -/

/-- C10: a month filter without both startDate and endDate yields the calendar
month of the current year (the `nowYear` parameter, not any user-specified year);
supplying both dates replaces the month-derived range entirely. -/
theorem month_filter_semantics (nowYear mm : Nat) (startDate endDate : Option SimpleDate) :
    (¬ (startDate.isSome = true ∧ endDate.isSome = true) →
      buildDateFilter nowYear (some mm) startDate endDate =
        some (⟨nowYear, mm, 1⟩, ⟨nowYear, mm, daysInMonth nowYear mm⟩)) ∧
    (∀ s e month, startDate = some s → endDate = some e →
      buildDateFilter nowYear month startDate endDate = some (s, e)) := by
  constructor
  · intro h
    rcases startDate with _ | s
    · rcases endDate with _ | e
      · rfl
      · rfl
    · rcases endDate with _ | e
      · rfl
      · exact absurd ⟨rfl, rfl⟩ h
  · intro s e month hs he
    subst hs
    subst he
    rfl

/-- C10 witness: month 3 with no explicit dates maps to March of the current
year. -/
theorem month_filter_semantics_witness :
    buildDateFilter 2024 (some 3) none none =
      some (⟨2024, 3, 1⟩, ⟨2024, 3, 31⟩) := by
  have h := (month_filter_semantics 2024 3 none none).1 (by decide)
  rw [h]
  decide

end ExpenseTracker
